import Mathlib

/-!
# Ingress annotation validator (`dataclients/kubernetes/definitions/ingressvalidator.go`)

A shallow embedding of `IngressV1Validator.Validate` and its three per-annotation
checks, together with the parts of Go's `errors` and `fmt` packages they rely on
(`errors.Join`, `fmt.Errorf` with `%w`).

The parsers (`eskip.ParseFilters`, `eskip.ParsePredicates`, `eskip.Parse`), the
semantic checkers (`validateFilters`, `validatePredicates`, `validateRoute`) and the
annotation-key constants live outside the validated file; they are parameters of the
embedding, bundled in `Collaborators`, and are taken to be deterministic functions of
their arguments. Every function of the embedding returns, next to its Go result, the
ordered list of collaborator calls it made, with the arguments passed, so that
statements of the form "the checker is not invoked" can be expressed.
-/

set_option autoImplicit false

namespace Skipper

/-! ## Go errors -/

/-- Non-nil Go `error` values: an error produced by a collaborator (`leaf`), a
`*fmt.wrapError` built by `fmt.Errorf` with one `%w` verb (`wrap`, holding the
formatted message and the wrapped error), and a `*errors.joinError` built by
`errors.Join` (`join`). -/
inductive GoError where
  | leaf (msg : String)
  | wrap (msg : String) (err : GoError)
  | join (errs : List GoError)

/-- Go's interface type `error`; `none` is `nil`. -/
abbrev error := Option GoError

mutual
/-- The method `Error() string`. A `joinError` prints its members separated by a
newline; a `wrapError` prints the message formatted when it was built. -/
def GoError.Error : GoError → String
  | .leaf msg => msg
  | .wrap msg _ => msg
  | .join errs => joinMsgs errs
/-- Body of `(*joinError).Error`: the members' messages, newline separated. -/
def joinMsgs : List GoError → String
  | [] => ""
  | [e] => e.Error
  | e :: e2 :: es => e.Error ++ "\n" ++ joinMsgs (e2 :: es)
end

mutual
/-- Unwrap the composite (`Unwrap() []error`) structure of an error down to the
errors that are not themselves `joinError`s. -/
def GoError.leaves : GoError → List GoError
  | .leaf msg => [.leaf msg]
  | .wrap msg err => [.wrap msg err]
  | .join errs => leavesList errs
/-- The function `GoError.leaves` over the members of a `joinError`. -/
def leavesList : List GoError → List GoError
  | [] => []
  | e :: es => e.leaves ++ leavesList es
end

/-- The direct members of an error value: the `Unwrap() []error` list of a
`joinError`, the error itself otherwise, nothing for `nil`. -/
def members : error → List GoError
  | none => []
  | some (.join errs) => errs
  | some e => [e]

/-- The individual problems held by an error value (`nil` holds none). -/
def problems : error → List GoError
  | none => []
  | some e => e.leaves

/-- Message of an error value; `nil` has none. -/
def message : error → Option String
  | none => none
  | some e => some e.Error

/-- A list of strings joined with newlines. -/
def newlineJoin : List String → String
  | [] => ""
  | [s] => s
  | s :: t :: rest => s ++ "\n" ++ newlineJoin (t :: rest)

/-- Go's `errors.Join`: `nil` when every argument is `nil`, otherwise a
`joinError` holding the non-nil arguments in order. -/
def Join (errs : List error) : error :=
  let n := (errs.filter Option.isSome).length
  if n = 0 then none else some (.join (errs.filterMap id))

/-- The text `invalid "<key>" annotation: ` produced by the format string
`"invalid \"%s\" annotation: %w"` before the wrapped error's message. -/
def annotationPrefix (key : String) : String :=
  "invalid \"" ++ key ++ "\" annotation: "

/-- The call `fmt.Errorf("invalid \"%s\" annotation: %w", key, err)`. -/
def annotationErrorf (key : String) (err : GoError) : GoError :=
  .wrap (annotationPrefix key ++ err.Error) err

/-- An error built by the validator's `fmt.Errorf` call for the annotation `key`. -/
def IsAnnotationError (key : String) (e : GoError) : Prop :=
  ∃ inner, e = annotationErrorf key inner

/-! ## Data model -/

/-- The struct `ResourceContext`. -/
structure ResourceContext where
  Namespace : String
  Name : String
  ResourceType : String
deriving DecidableEq, Repr

/-- The struct `routing.Options`: the two fields the validator sets, and the
remaining fields gathered in `Others`. -/
structure Options (Reg Specs Rest : Type) where
  FilterRegistry : Reg
  Predicates : Specs
  Others : Rest

/-- A Go `map[string]string`; `none` is the nil map. -/
abbrev Annotations := Option (List (String × String))

/-- The comma-ok lookup `v, ok := m[key]`; reading a nil map finds nothing. -/
def mapIndex (m : Annotations) (key : String) : Option String :=
  match m with
  | none => none
  | some kvs => kvs.lookup key

/-- The struct `Metadata` of an item, as far as the validator reads it. -/
structure Metadata where
  Namespace : String
  Name : String
  Annotations : Annotations

/-- The struct `IngressV1Item`, with its metadata present. -/
structure IngressV1Item where
  Metadata : Metadata

/-- The struct `IngressV1Validator`. -/
structure IngressV1Validator (Reg Specs Met : Type) where
  FilterRegistry : Reg
  PredicateSpecs : Specs
  Metrics : Met
  EnableAdvancedValidation : Bool

/-- A call made to a collaborator, with the arguments it received. -/
inductive Call (FDef PDef RDef Reg Specs Met Rest : Type) where
  | ParseFilters (text : String)
  | ParsePredicates (text : String)
  | Parse (text : String)
  | validateFilters (ctx : ResourceContext) (reg : Reg) (mtr : Met) (fs : List FDef)
  | validatePredicates (ctx : ResourceContext) (specs : Specs) (mtr : Met) (ps : List PDef)
  | validateRoute (ctx : ResourceContext) (opts : Options Reg Specs Rest) (mtr : Met) (r : RDef)

/-- Whether a call is a call of one of the three semantic checkers. -/
def Call.isChecker {FDef PDef RDef Reg Specs Met Rest : Type} :
    Call FDef PDef RDef Reg Specs Met Rest → Bool
  | .validateFilters .. => true
  | .validatePredicates .. => true
  | .validateRoute .. => true
  | _ => false

/-- The constants and functions the validator uses that are declared outside
`ingressvalidator.go`: the three annotation keys, the resource-type constant, the
three parsers (each returning the Go pair of parsed definitions and error) and the
three semantic checkers. -/
structure Collaborators (FDef PDef RDef Reg Specs Met Rest : Type) where
  IngressFilterAnnotation : String
  IngressPredicateAnnotation : String
  IngressRoutesAnnotation : String
  ResourceTypeIngress : String
  ParseFilters : String → List FDef × error
  ParsePredicates : String → List PDef × error
  Parse : String → List RDef × error
  validateFilters : ResourceContext → Reg → Met → List FDef → error
  validatePredicates : ResourceContext → Specs → Met → List PDef → error
  validateRoute : ResourceContext → Options Reg Specs Rest → Met → RDef → error

section Validator

variable {FDef PDef RDef Reg Specs Met Rest : Type}

/-- The method `IngressV1Validator.validateFilterAnnotation`. -/
def validateFilterAnnotation (c : Collaborators FDef PDef RDef Reg Specs Met Rest)
    (igv : IngressV1Validator Reg Specs Met) (item : IngressV1Item) :
    error × List (Call FDef PDef RDef Reg Specs Met Rest) :=
  match mapIndex item.Metadata.Annotations c.IngressFilterAnnotation with
  | some filters =>
    let errs : List error := []
    let parsed := c.ParseFilters filters
    let trace := [Call.ParseFilters filters]
    let errs := match parsed.2 with
      | some err => errs ++ [some (annotationErrorf c.IngressFilterAnnotation err)]
      | none => errs
    if errs.length > 0 then (Join errs, trace)
    else if igv.EnableAdvancedValidation then
      let ctx : ResourceContext :=
        { Namespace := item.Metadata.Namespace, Name := item.Metadata.Name,
          ResourceType := c.ResourceTypeIngress }
      let trace := trace ++ [Call.validateFilters ctx igv.FilterRegistry igv.Metrics parsed.1]
      let errs := match c.validateFilters ctx igv.FilterRegistry igv.Metrics parsed.1 with
        | some err => errs ++ [some (annotationErrorf c.IngressFilterAnnotation err)]
        | none => errs
      (Join errs, trace)
    else (Join errs, trace)
  | none => (none, [])

/-- The method `IngressV1Validator.validatePredicateAnnotation`. -/
def validatePredicateAnnotation (c : Collaborators FDef PDef RDef Reg Specs Met Rest)
    (igv : IngressV1Validator Reg Specs Met) (item : IngressV1Item) :
    error × List (Call FDef PDef RDef Reg Specs Met Rest) :=
  match mapIndex item.Metadata.Annotations c.IngressPredicateAnnotation with
  | some predicates =>
    let errs : List error := []
    let parsed := c.ParsePredicates predicates
    let trace := [Call.ParsePredicates predicates]
    let errs := match parsed.2 with
      | some err => errs ++ [some (annotationErrorf c.IngressPredicateAnnotation err)]
      | none => errs
    if errs.length > 0 then (Join errs, trace)
    else if igv.EnableAdvancedValidation then
      let ctx : ResourceContext :=
        { Namespace := item.Metadata.Namespace, Name := item.Metadata.Name,
          ResourceType := c.ResourceTypeIngress }
      let trace := trace ++ [Call.validatePredicates ctx igv.PredicateSpecs igv.Metrics parsed.1]
      let errs := match c.validatePredicates ctx igv.PredicateSpecs igv.Metrics parsed.1 with
        | some err => errs ++ [some (annotationErrorf c.IngressPredicateAnnotation err)]
        | none => errs
      (Join errs, trace)
    else (Join errs, trace)
  | none => (none, [])

/-- One iteration of the loop `for _, r := range parsedRoutes` of
`validateRoutesAnnotation`, on the accumulated errors and calls. -/
def routesLoopBody (c : Collaborators FDef PDef RDef Reg Specs Met Rest)
    (igv : IngressV1Validator Reg Specs Met) (item : IngressV1Item)
    (opts : Options Reg Specs Rest)
    (acc : List error × List (Call FDef PDef RDef Reg Specs Met Rest)) (r : RDef) :
    List error × List (Call FDef PDef RDef Reg Specs Met Rest) :=
  let ctx : ResourceContext :=
    { Namespace := item.Metadata.Namespace, Name := item.Metadata.Name,
      ResourceType := c.ResourceTypeIngress }
  let trace := acc.2 ++ [Call.validateRoute ctx opts igv.Metrics r]
  match c.validateRoute ctx opts igv.Metrics r with
  | some err => (acc.1 ++ [some (annotationErrorf c.IngressRoutesAnnotation err)], trace)
  | none => (acc.1, trace)

/-- The method `IngressV1Validator.validateRoutesAnnotation`. The fields of
`routing.Options` that the composite literal does not name hold their zero value,
here `default`. -/
def validateRoutesAnnotation [Inhabited Rest]
    (c : Collaborators FDef PDef RDef Reg Specs Met Rest)
    (igv : IngressV1Validator Reg Specs Met) (item : IngressV1Item) :
    error × List (Call FDef PDef RDef Reg Specs Met Rest) :=
  match mapIndex item.Metadata.Annotations c.IngressRoutesAnnotation with
  | some routes =>
    let errs : List error := []
    let parsed := c.Parse routes
    let trace := [Call.Parse routes]
    let errs := match parsed.2 with
      | some err => errs ++ [some (annotationErrorf c.IngressRoutesAnnotation err)]
      | none => errs
    if errs.length > 0 then (Join errs, trace)
    else if igv.EnableAdvancedValidation then
      let opts : Options Reg Specs Rest :=
        { FilterRegistry := igv.FilterRegistry, Predicates := igv.PredicateSpecs,
          Others := default }
      let looped := parsed.1.foldl (routesLoopBody c igv item opts) (errs, trace)
      (Join looped.1, looped.2)
    else (Join errs, trace)
  | none => (none, [])

/-- The method `IngressV1Validator.Validate`: the combined error, and the calls
made to the collaborators in order. -/
def Validate [Inhabited Rest] (c : Collaborators FDef PDef RDef Reg Specs Met Rest)
    (igv : IngressV1Validator Reg Specs Met) (item : IngressV1Item) :
    error × List (Call FDef PDef RDef Reg Specs Met Rest) :=
  let errs : List error := []
  let rf := validateFilterAnnotation c igv item
  let errs := errs ++ [rf.1]
  let rp := validatePredicateAnnotation c igv item
  let errs := errs ++ [rp.1]
  let rr := validateRoutesAnnotation c igv item
  let errs := errs ++ [rr.1]
  (Join errs, rf.2 ++ rp.2 ++ rr.2)

/-! ## The problems of one annotation, following the specification

The per-annotation procedure of the specification: nothing when the annotation is
absent; the wrapped parse error when parsing fails; nothing when parsing succeeds
in syntax-only mode; the wrapped errors of the semantic checker otherwise. -/

/-- The resource context built for an item. -/
def contextOf (c : Collaborators FDef PDef RDef Reg Specs Met Rest)
    (item : IngressV1Item) : ResourceContext :=
  { Namespace := item.Metadata.Namespace, Name := item.Metadata.Name,
    ResourceType := c.ResourceTypeIngress }

/-- The options bundle built from a validator's registry and predicate specs. -/
def optionsOf [Inhabited Rest] (igv : IngressV1Validator Reg Specs Met) :
    Options Reg Specs Rest :=
  { FilterRegistry := igv.FilterRegistry, Predicates := igv.PredicateSpecs,
    Others := default }

/-- Specification of the problems of the filter annotation. -/
def filterProblems (c : Collaborators FDef PDef RDef Reg Specs Met Rest)
    (igv : IngressV1Validator Reg Specs Met) (item : IngressV1Item) : List GoError :=
  match mapIndex item.Metadata.Annotations c.IngressFilterAnnotation with
  | none => []
  | some text =>
    match (c.ParseFilters text).2 with
    | some p => [annotationErrorf c.IngressFilterAnnotation p]
    | none =>
      if igv.EnableAdvancedValidation then
        match c.validateFilters (contextOf c item) igv.FilterRegistry igv.Metrics
            (c.ParseFilters text).1 with
        | some e => [annotationErrorf c.IngressFilterAnnotation e]
        | none => []
      else []

/-- Specification of the problems of the predicate annotation. -/
def predicateProblems (c : Collaborators FDef PDef RDef Reg Specs Met Rest)
    (igv : IngressV1Validator Reg Specs Met) (item : IngressV1Item) : List GoError :=
  match mapIndex item.Metadata.Annotations c.IngressPredicateAnnotation with
  | none => []
  | some text =>
    match (c.ParsePredicates text).2 with
    | some p => [annotationErrorf c.IngressPredicateAnnotation p]
    | none =>
      if igv.EnableAdvancedValidation then
        match c.validatePredicates (contextOf c item) igv.PredicateSpecs igv.Metrics
            (c.ParsePredicates text).1 with
        | some e => [annotationErrorf c.IngressPredicateAnnotation e]
        | none => []
      else []

/-- The wrapped errors of the failing routes among `routes`, in route order. -/
def routeErrors [Inhabited Rest] (c : Collaborators FDef PDef RDef Reg Specs Met Rest)
    (igv : IngressV1Validator Reg Specs Met) (item : IngressV1Item)
    (routes : List RDef) : List GoError :=
  routes.filterMap fun r =>
    (c.validateRoute (contextOf c item) (optionsOf igv) igv.Metrics r).map
      (annotationErrorf c.IngressRoutesAnnotation)

/-- The route-checker calls for `routes`, in route order. -/
def routeCalls [Inhabited Rest] (c : Collaborators FDef PDef RDef Reg Specs Met Rest)
    (igv : IngressV1Validator Reg Specs Met) (item : IngressV1Item)
    (routes : List RDef) : List (Call FDef PDef RDef Reg Specs Met Rest) :=
  routes.map fun r => Call.validateRoute (contextOf c item) (optionsOf igv) igv.Metrics r

/-- Specification of the problems of the routes annotation. -/
def routesProblems [Inhabited Rest] (c : Collaborators FDef PDef RDef Reg Specs Met Rest)
    (igv : IngressV1Validator Reg Specs Met) (item : IngressV1Item) : List GoError :=
  match mapIndex item.Metadata.Annotations c.IngressRoutesAnnotation with
  | none => []
  | some text =>
    match (c.Parse text).2 with
    | some p => [annotationErrorf c.IngressRoutesAnnotation p]
    | none =>
      if igv.EnableAdvancedValidation then routeErrors c igv item (c.Parse text).1
      else []

/-! ## A concrete instance

A small instance of the collaborators, used to evaluate the validator on explicit
items: a filter or predicate expression is one name, a routes expression has one
route per character, every parser rejects the text `"foo("`, and a name is valid
when the registry (respectively the predicate specs) lists it. -/

/-- Parser of the instance for filters and predicates. -/
def exampleParseNames (text : String) : List String × error :=
  if text = "foo(" then ([], some (.leaf "parse failed")) else ([text], none)

/-- Parser of the instance for routes. -/
def exampleParse (text : String) : List String × error :=
  if text = "foo(" then ([], some (.leaf "parse failed"))
  else (text.data.map String.singleton, none)

/-- Checker of the instance for a chain of names against the known names. -/
def exampleCheckNames (known : List String) (names : List String) : error :=
  match names.find? (fun n => !known.contains n) with
  | some n => some (.leaf ("\"" ++ n ++ "\" not found"))
  | none => none

/-- The collaborators of the instance. -/
def exampleCollaborators :
    Collaborators String String String (List String) (List String) Unit Unit where
  IngressFilterAnnotation := "zalando.org/skipper-filter"
  IngressPredicateAnnotation := "zalando.org/skipper-predicate"
  IngressRoutesAnnotation := "zalando.org/skipper-routes"
  ResourceTypeIngress := "ingress"
  ParseFilters := exampleParseNames
  ParsePredicates := exampleParseNames
  Parse := exampleParse
  validateFilters := fun _ reg _ fs => exampleCheckNames reg fs
  validatePredicates := fun _ specs _ ps => exampleCheckNames specs ps
  validateRoute := fun _ opts _ r => exampleCheckNames opts.FilterRegistry [r]

/-- A validator of the instance knowing the filter `a` and the predicate `p`. -/
def exampleValidator (advanced : Bool) : IngressV1Validator (List String) (List String) Unit where
  FilterRegistry := ["a"]
  PredicateSpecs := ["p"]
  Metrics := ()
  EnableAdvancedValidation := advanced

/-- An item of the instance with the given annotation map. -/
def exampleItem (annotations : Annotations) : IngressV1Item where
  Metadata := { Namespace := "default", Name := "ing", Annotations := annotations }

/-- An item whose three annotations all hold the malformed text `foo(`. -/
def exampleItemMalformed : IngressV1Item :=
  exampleItem (some [("zalando.org/skipper-filter", "foo("),
    ("zalando.org/skipper-predicate", "foo("), ("zalando.org/skipper-routes", "foo(")])

/-- An item whose annotations parse: the filter `foo` and the predicate `bar` are
not known to `exampleValidator`, and of the routes `x`, `a`, `y` the first and the
last are not. -/
def exampleItemUnknown : IngressV1Item :=
  exampleItem (some [("zalando.org/skipper-filter", "foo"),
    ("zalando.org/skipper-predicate", "bar"), ("zalando.org/skipper-routes", "xay")])

/-- An item carrying only a routes annotation, with the two unknown routes `x`
and `y`. -/
def exampleItemTwoRoutes : IngressV1Item :=
  exampleItem (some [("zalando.org/skipper-routes", "xy")])

/-- An item whose annotation map holds only a key the validator does not read. -/
def exampleItemOther : IngressV1Item :=
  exampleItem (some [("kubernetes.io/ingress.class", "foo(")])

/-- The error `Validate` returns for `exampleItemUnknown` under
`exampleValidator true`. -/
def exampleUnknownError : GoError :=
  .join [.join [annotationErrorf "zalando.org/skipper-filter" (.leaf "\"foo\" not found")],
    .join [annotationErrorf "zalando.org/skipper-predicate" (.leaf "\"bar\" not found")],
    .join [annotationErrorf "zalando.org/skipper-routes" (.leaf "\"x\" not found"),
      annotationErrorf "zalando.org/skipper-routes" (.leaf "\"y\" not found")]]

/-- Specification of the arguments of a semantic-checker call made for `item` by the
validator `igv`: the resource context of the item, the validator's metrics, the
registry, the predicate specs or the options bundle built from both (every other
field zero), and the definitions the parser returned for the annotation's text.
Parser calls are not constrained. -/
def receivesSpecifiedArguments [Inhabited Rest]
    (c : Collaborators FDef PDef RDef Reg Specs Met Rest)
    (igv : IngressV1Validator Reg Specs Met) (item : IngressV1Item) :
    Call FDef PDef RDef Reg Specs Met Rest → Prop
  | .validateFilters ctx reg mtr fs =>
    ctx = { Namespace := item.Metadata.Namespace, Name := item.Metadata.Name,
            ResourceType := c.ResourceTypeIngress } ∧
      reg = igv.FilterRegistry ∧ mtr = igv.Metrics ∧
      ∃ text, mapIndex item.Metadata.Annotations c.IngressFilterAnnotation = some text ∧
        fs = (c.ParseFilters text).1
  | .validatePredicates ctx specs mtr ps =>
    ctx = { Namespace := item.Metadata.Namespace, Name := item.Metadata.Name,
            ResourceType := c.ResourceTypeIngress } ∧
      specs = igv.PredicateSpecs ∧ mtr = igv.Metrics ∧
      ∃ text, mapIndex item.Metadata.Annotations c.IngressPredicateAnnotation = some text ∧
        ps = (c.ParsePredicates text).1
  | .validateRoute ctx opts mtr r =>
    ctx = { Namespace := item.Metadata.Namespace, Name := item.Metadata.Name,
            ResourceType := c.ResourceTypeIngress } ∧
      opts = { FilterRegistry := igv.FilterRegistry, Predicates := igv.PredicateSpecs,
               Others := default } ∧
      mtr = igv.Metrics ∧
      ∃ text, mapIndex item.Metadata.Annotations c.IngressRoutesAnnotation = some text ∧
        r ∈ (c.Parse text).1
  | _ => True

/-- Specification of the wrapped parse error of one annotation, given the lookup of
its key and its parser's error result. -/
def parseProblem (key : String) (parseError : String → error) :
    Option String → List GoError
  | none => []
  | some text =>
    match parseError text with
    | some p => [annotationErrorf key p]
    | none => []

/-- Specification of the wrapped parse errors of an item, in the order filter,
predicate, routes. -/
def parseProblems (c : Collaborators FDef PDef RDef Reg Specs Met Rest)
    (item : IngressV1Item) : List GoError :=
  parseProblem c.IngressFilterAnnotation (fun text => (c.ParseFilters text).2)
      (mapIndex item.Metadata.Annotations c.IngressFilterAnnotation) ++
    parseProblem c.IngressPredicateAnnotation (fun text => (c.ParsePredicates text).2)
      (mapIndex item.Metadata.Annotations c.IngressPredicateAnnotation) ++
    parseProblem c.IngressRoutesAnnotation (fun text => (c.Parse text).2)
      (mapIndex item.Metadata.Annotations c.IngressRoutesAnnotation)

end Validator

/-! ## Lemmas on errors -/

theorem filterMap_id_map_some (l : List GoError) : (l.map some).filterMap id = l := by
  induction l with
  | nil => rfl
  | cons e es ih => simp [List.filterMap_cons, ih]

theorem Join_of_nil (errs : List error) (h : errs.filterMap id = []) :
    Join errs = none := by
  have h0 : (errs.filter Option.isSome).length = 0 := by
    induction errs with
    | nil => rfl
    | cons e es ih =>
      cases e with
      | none => simpa [List.filter_cons] using ih (by simpa using h)
      | some x => simp at h
  simp [Join, h0]

theorem Join_of_ne_nil (errs : List error) (h : errs.filterMap id ≠ []) :
    Join errs = some (.join (errs.filterMap id)) := by
  have h0 : (errs.filter Option.isSome).length ≠ 0 := by
    induction errs with
    | nil => exact absurd rfl h
    | cons e es ih =>
      cases e with
      | none => simpa [List.filter_cons] using ih (by simpa using h)
      | some x => simp [List.filter_cons]
  simp [Join, h0]

theorem Join_nil : Join [] = none := rfl

theorem Join_map_some_nil : Join (([] : List GoError).map some) = none := rfl

theorem Join_map_some_cons (e : GoError) (l : List GoError) :
    Join ((e :: l).map some) = some (.join (e :: l)) := by
  rw [Join_of_ne_nil _ (by rw [filterMap_id_map_some]; exact List.cons_ne_nil _ _),
    filterMap_id_map_some]

theorem Join_eq_none_iff (errs : List error) :
    Join errs = none ↔ ∀ e ∈ errs, e = none := by
  constructor
  · intro h e he
    cases e with
    | none => rfl
    | some x =>
      have hx : x ∈ errs.filterMap id := List.mem_filterMap.mpr ⟨some x, he, rfl⟩
      have hne : errs.filterMap id ≠ [] := List.ne_nil_of_mem hx
      rw [Join_of_ne_nil _ hne] at h
      cases h
  · intro h
    apply Join_of_nil
    apply List.eq_nil_iff_forall_not_mem.mpr
    intro x hx
    obtain ⟨e, he, hex⟩ := List.mem_filterMap.mp hx
    rw [h e he] at hex
    cases hex

/-! ## Problems and message of a joined result -/

theorem leavesList_append (l m : List GoError) :
    leavesList (l ++ m) = leavesList l ++ leavesList m := by
  induction l with
  | nil => simp [leavesList]
  | cons e es ih => simp [leavesList, ih]

theorem leavesList_atoms (l : List GoError) (h : ∀ e ∈ l, e.leaves = [e]) :
    leavesList l = l := by
  induction l with
  | nil => simp [leavesList]
  | cons e es ih =>
    simp only [leavesList]
    rw [h e (List.mem_cons_self _ _), ih (fun x hx => h x (List.mem_cons_of_mem _ hx))]
    rfl

theorem IsAnnotationError.leaves_eq {key : String} {e : GoError}
    (h : IsAnnotationError key e) : e.leaves = [e] := by
  obtain ⟨inner, rfl⟩ := h
  simp [annotationErrorf, GoError.leaves]

theorem IsAnnotationError.prefix_message {key : String} {e : GoError}
    (h : IsAnnotationError key e) : (annotationPrefix key).data <+: e.Error.data := by
  obtain ⟨inner, rfl⟩ := h
  simp [annotationErrorf, GoError.Error]

theorem problems_Join_atoms (l : List GoError) (h : ∀ e ∈ l, e.leaves = [e]) :
    problems (Join (l.map some)) = l := by
  cases l with
  | nil => rfl
  | cons e es =>
    rw [Join_map_some_cons]
    simp only [problems, GoError.leaves]
    exact leavesList_atoms _ h

theorem members_Join_map_some (l : List GoError) :
    members (Join (l.map some)) = l := by
  cases l with
  | nil => rfl
  | cons e es => rw [Join_map_some_cons]; rfl

theorem joinMsgs_eq (l : List GoError) :
    joinMsgs l = newlineJoin (l.map GoError.Error) := by
  induction l with
  | nil => simp [joinMsgs, newlineJoin]
  | cons e es ih =>
    cases es with
    | nil => simp [joinMsgs, newlineJoin]
    | cons e2 rest => simp only [joinMsgs, List.map_cons, newlineJoin, ih]

theorem newlineJoin_cons (s : String) (l : List String) (h : l ≠ []) :
    newlineJoin (s :: l) = s ++ "\n" ++ newlineJoin l := by
  cases l with
  | nil => exact absurd rfl h
  | cons t rest => rfl

theorem newlineJoin_append (X Y : List String) (hX : X ≠ []) (hY : Y ≠ []) :
    newlineJoin (X ++ Y) = newlineJoin X ++ "\n" ++ newlineJoin Y := by
  induction X with
  | nil => exact absurd rfl hX
  | cons s rest ih =>
    cases rest with
    | nil =>
      simp only [List.singleton_append]
      rw [newlineJoin_cons _ _ hY]
      rfl
    | cons t rest2 =>
      have hne : (t :: rest2) ++ Y ≠ [] := by simp
      rw [List.cons_append, newlineJoin_cons _ _ hne, ih (List.cons_ne_nil _ _),
        newlineJoin_cons _ _ (List.cons_ne_nil _ _)]
      simp [String.append_assoc]

theorem leaves_join (l : List GoError) : (GoError.join l).leaves = leavesList l := by
  simp [GoError.leaves]

theorem leavesList_join_cons (l rest : List GoError) :
    leavesList (.join l :: rest) = leavesList l ++ leavesList rest := by
  simp [leavesList, GoError.leaves]

theorem leavesList_nil : leavesList [] = [] := by
  simp [leavesList]

theorem problems_Join3 (A B C : List GoError)
    (hA : ∀ e ∈ A, e.leaves = [e]) (hB : ∀ e ∈ B, e.leaves = [e])
    (hC : ∀ e ∈ C, e.leaves = [e]) :
    problems (Join [Join (A.map some), Join (B.map some), Join (C.map some)]) =
      A ++ B ++ C := by
  have hA2 := leavesList_atoms A hA
  have hB2 := leavesList_atoms B hB
  have hC2 := leavesList_atoms C hC
  rcases A with _ | ⟨a, A⟩ <;> rcases B with _ | ⟨b, B⟩ <;> rcases C with _ | ⟨c, C⟩ <;>
    simp only [Join_map_some_cons, Join_map_some_nil] <;>
    simp [Join, problems] <;>
    simp only [leaves_join, leavesList_join_cons, leavesList_nil, hA2, hB2, hC2] <;>
    simp

theorem message_Join3 (A B C : List GoError) (err : GoError)
    (h : Join [Join (A.map some), Join (B.map some), Join (C.map some)] = some err) :
    err.Error = newlineJoin ((A ++ B ++ C).map GoError.Error) := by
  rcases A with _ | ⟨a, A⟩ <;> rcases B with _ | ⟨b, B⟩ <;> rcases C with _ | ⟨c, C⟩ <;>
    simp only [Join_map_some_cons, Join_map_some_nil] at h <;>
    simp [Join] at h <;> subst h <;>
    simp only [GoError.Error, joinMsgs, joinMsgs_eq, List.nil_append, List.append_nil,
      List.map_append] <;>
    first
      | rfl
      | (rw [newlineJoin_append _ _ (by simp) (by simp),
          newlineJoin_append _ _ (by simp) (by simp)]; simp [String.append_assoc])
      | (rw [newlineJoin_append _ _ (by simp) (by simp)])

/-! ## The four outcomes of each per-annotation check -/

section Outcomes

variable {FDef PDef RDef Reg Specs Met Rest : Type}

theorem validateFilterAnnotation_absent
    (c : Collaborators FDef PDef RDef Reg Specs Met Rest)
    (igv : IngressV1Validator Reg Specs Met) (item : IngressV1Item)
    (h : mapIndex item.Metadata.Annotations c.IngressFilterAnnotation = none) :
    validateFilterAnnotation c igv item = (none, []) := by
  simp [ validateFilterAnnotation, h]

theorem validateFilterAnnotation_parseError
    (c : Collaborators FDef PDef RDef Reg Specs Met Rest)
    (igv : IngressV1Validator Reg Specs Met) (item : IngressV1Item)
    (text : String) (p : GoError)
    (h : mapIndex item.Metadata.Annotations c.IngressFilterAnnotation = some text)
    (hp : (c.ParseFilters text).2 = some p) :
    validateFilterAnnotation c igv item =
      (some (.join [annotationErrorf c.IngressFilterAnnotation p]),
        [Call.ParseFilters text]) := by
  simp [ validateFilterAnnotation, h, hp]
  exact Join_map_some_cons _ []

theorem validateFilterAnnotation_syntaxOnly
    (c : Collaborators FDef PDef RDef Reg Specs Met Rest)
    (igv : IngressV1Validator Reg Specs Met) (item : IngressV1Item) (text : String)
    (h : mapIndex item.Metadata.Annotations c.IngressFilterAnnotation = some text)
    (hp : (c.ParseFilters text).2 = none) (hf : igv.EnableAdvancedValidation = false) :
    validateFilterAnnotation c igv item = (none, [Call.ParseFilters text]) := by
  simp [ validateFilterAnnotation, h, hp, hf, Join_nil]

theorem validateFilterAnnotation_advanced
    (c : Collaborators FDef PDef RDef Reg Specs Met Rest)
    (igv : IngressV1Validator Reg Specs Met) (item : IngressV1Item) (text : String)
    (h : mapIndex item.Metadata.Annotations c.IngressFilterAnnotation = some text)
    (hp : (c.ParseFilters text).2 = none) (hf : igv.EnableAdvancedValidation = true) :
    validateFilterAnnotation c igv item =
      (Join (((c.validateFilters (contextOf c item) igv.FilterRegistry igv.Metrics
          (c.ParseFilters text).1).toList.map
            (annotationErrorf c.IngressFilterAnnotation)).map some),
        [Call.ParseFilters text,
          Call.validateFilters (contextOf c item) igv.FilterRegistry igv.Metrics
            (c.ParseFilters text).1]) := by
  simp only [ validateFilterAnnotation, h, hp, hf, contextOf]
  cases c.validateFilters _ igv.FilterRegistry igv.Metrics (c.ParseFilters text).1 <;> simp

theorem validatePredicateAnnotation_absent
    (c : Collaborators FDef PDef RDef Reg Specs Met Rest)
    (igv : IngressV1Validator Reg Specs Met) (item : IngressV1Item)
    (h : mapIndex item.Metadata.Annotations c.IngressPredicateAnnotation = none) :
    validatePredicateAnnotation c igv item = (none, []) := by
  simp [ validatePredicateAnnotation, h]

theorem validatePredicateAnnotation_parseError
    (c : Collaborators FDef PDef RDef Reg Specs Met Rest)
    (igv : IngressV1Validator Reg Specs Met) (item : IngressV1Item)
    (text : String) (p : GoError)
    (h : mapIndex item.Metadata.Annotations c.IngressPredicateAnnotation = some text)
    (hp : (c.ParsePredicates text).2 = some p) :
    validatePredicateAnnotation c igv item =
      (some (.join [annotationErrorf c.IngressPredicateAnnotation p]),
        [Call.ParsePredicates text]) := by
  simp [ validatePredicateAnnotation, h, hp]
  exact Join_map_some_cons _ []

theorem validatePredicateAnnotation_syntaxOnly
    (c : Collaborators FDef PDef RDef Reg Specs Met Rest)
    (igv : IngressV1Validator Reg Specs Met) (item : IngressV1Item) (text : String)
    (h : mapIndex item.Metadata.Annotations c.IngressPredicateAnnotation = some text)
    (hp : (c.ParsePredicates text).2 = none) (hf : igv.EnableAdvancedValidation = false) :
    validatePredicateAnnotation c igv item = (none, [Call.ParsePredicates text]) := by
  simp [ validatePredicateAnnotation, h, hp, hf, Join_nil]

theorem validatePredicateAnnotation_advanced
    (c : Collaborators FDef PDef RDef Reg Specs Met Rest)
    (igv : IngressV1Validator Reg Specs Met) (item : IngressV1Item) (text : String)
    (h : mapIndex item.Metadata.Annotations c.IngressPredicateAnnotation = some text)
    (hp : (c.ParsePredicates text).2 = none) (hf : igv.EnableAdvancedValidation = true) :
    validatePredicateAnnotation c igv item =
      (Join (((c.validatePredicates (contextOf c item) igv.PredicateSpecs igv.Metrics
          (c.ParsePredicates text).1).toList.map
            (annotationErrorf c.IngressPredicateAnnotation)).map some),
        [Call.ParsePredicates text,
          Call.validatePredicates (contextOf c item) igv.PredicateSpecs igv.Metrics
            (c.ParsePredicates text).1]) := by
  simp only [ validatePredicateAnnotation, h, hp, hf, contextOf]
  cases c.validatePredicates _ igv.PredicateSpecs igv.Metrics (c.ParsePredicates text).1 <;> simp

theorem routesLoop_eq [Inhabited Rest]
    (c : Collaborators FDef PDef RDef Reg Specs Met Rest)
    (igv : IngressV1Validator Reg Specs Met) (item : IngressV1Item)
    (routes : List RDef)
    (acc : List error × List (Call FDef PDef RDef Reg Specs Met Rest)) :
    routes.foldl (routesLoopBody c igv item (optionsOf igv)) acc =
      (acc.1 ++ (routeErrors c igv item routes).map some,
        acc.2 ++ routeCalls c igv item routes) := by
  induction routes generalizing acc with
  | nil => simp [routeErrors, routeCalls]
  | cons r rs ih =>
    rw [List.foldl_cons, ih]
    simp only [routesLoopBody, routeErrors, routeCalls, contextOf, List.map_cons,
      List.filterMap_cons]
    cases c.validateRoute _ (optionsOf igv) igv.Metrics r <;> simp

theorem validateRoutesAnnotation_absent [Inhabited Rest]
    (c : Collaborators FDef PDef RDef Reg Specs Met Rest)
    (igv : IngressV1Validator Reg Specs Met) (item : IngressV1Item)
    (h : mapIndex item.Metadata.Annotations c.IngressRoutesAnnotation = none) :
    validateRoutesAnnotation c igv item = (none, []) := by
  simp [ validateRoutesAnnotation, h]

theorem validateRoutesAnnotation_parseError [Inhabited Rest]
    (c : Collaborators FDef PDef RDef Reg Specs Met Rest)
    (igv : IngressV1Validator Reg Specs Met) (item : IngressV1Item)
    (text : String) (p : GoError)
    (h : mapIndex item.Metadata.Annotations c.IngressRoutesAnnotation = some text)
    (hp : (c.Parse text).2 = some p) :
    validateRoutesAnnotation c igv item =
      (some (.join [annotationErrorf c.IngressRoutesAnnotation p]),
        [Call.Parse text]) := by
  simp [ validateRoutesAnnotation, h, hp]
  exact Join_map_some_cons _ []

theorem validateRoutesAnnotation_syntaxOnly [Inhabited Rest]
    (c : Collaborators FDef PDef RDef Reg Specs Met Rest)
    (igv : IngressV1Validator Reg Specs Met) (item : IngressV1Item) (text : String)
    (h : mapIndex item.Metadata.Annotations c.IngressRoutesAnnotation = some text)
    (hp : (c.Parse text).2 = none) (hf : igv.EnableAdvancedValidation = false) :
    validateRoutesAnnotation c igv item = (none, [Call.Parse text]) := by
  simp [ validateRoutesAnnotation, h, hp, hf, Join_nil]

theorem validateRoutesAnnotation_advanced [Inhabited Rest]
    (c : Collaborators FDef PDef RDef Reg Specs Met Rest)
    (igv : IngressV1Validator Reg Specs Met) (item : IngressV1Item) (text : String)
    (h : mapIndex item.Metadata.Annotations c.IngressRoutesAnnotation = some text)
    (hp : (c.Parse text).2 = none) (hf : igv.EnableAdvancedValidation = true) :
    validateRoutesAnnotation c igv item =
      (Join ((routeErrors c igv item (c.Parse text).1).map some),
        Call.Parse text :: routeCalls c igv item (c.Parse text).1) := by
  have hloop := routesLoop_eq c igv item (c.Parse text).1 ([], [Call.Parse text])
  simp only [optionsOf] at hloop
  simp [ validateRoutesAnnotation, h, hp, hf, hloop]

/-! ## The checks compute the specified problems -/

theorem validateFilterAnnotation_fst
    (c : Collaborators FDef PDef RDef Reg Specs Met Rest)
    (igv : IngressV1Validator Reg Specs Met) (item : IngressV1Item) :
    ( validateFilterAnnotation c igv item).1 =
      Join ((filterProblems c igv item).map some) := by
  cases h : mapIndex item.Metadata.Annotations c.IngressFilterAnnotation with
  | none => simp [validateFilterAnnotation_absent c igv item h, filterProblems, h, Join_nil]
  | some text =>
    cases hp : (c.ParseFilters text).2 with
    | some p =>
      rw [validateFilterAnnotation_parseError c igv item text p h hp]
      simp only [filterProblems, h, hp]
      exact (Join_map_some_cons _ []).symm
    | none =>
      cases hf : igv.EnableAdvancedValidation with
      | false =>
        simp [validateFilterAnnotation_syntaxOnly c igv item text h hp hf,
          filterProblems, h, hp, hf, Join_nil]
      | true =>
        rw [validateFilterAnnotation_advanced c igv item text h hp hf]
        simp only [filterProblems, h, hp, hf]
        cases c.validateFilters (contextOf c item) igv.FilterRegistry igv.Metrics
          (c.ParseFilters text).1 <;> simp

theorem validatePredicateAnnotation_fst
    (c : Collaborators FDef PDef RDef Reg Specs Met Rest)
    (igv : IngressV1Validator Reg Specs Met) (item : IngressV1Item) :
    ( validatePredicateAnnotation c igv item).1 =
      Join ((predicateProblems c igv item).map some) := by
  cases h : mapIndex item.Metadata.Annotations c.IngressPredicateAnnotation with
  | none =>
    simp [validatePredicateAnnotation_absent c igv item h, predicateProblems, h, Join_nil]
  | some text =>
    cases hp : (c.ParsePredicates text).2 with
    | some p =>
      rw [validatePredicateAnnotation_parseError c igv item text p h hp]
      simp only [predicateProblems, h, hp]
      exact (Join_map_some_cons _ []).symm
    | none =>
      cases hf : igv.EnableAdvancedValidation with
      | false =>
        simp [validatePredicateAnnotation_syntaxOnly c igv item text h hp hf,
          predicateProblems, h, hp, hf, Join_nil]
      | true =>
        rw [validatePredicateAnnotation_advanced c igv item text h hp hf]
        simp only [predicateProblems, h, hp, hf]
        cases c.validatePredicates (contextOf c item) igv.PredicateSpecs igv.Metrics
          (c.ParsePredicates text).1 <;> simp

theorem validateRoutesAnnotation_fst [Inhabited Rest]
    (c : Collaborators FDef PDef RDef Reg Specs Met Rest)
    (igv : IngressV1Validator Reg Specs Met) (item : IngressV1Item) :
    ( validateRoutesAnnotation c igv item).1 =
      Join ((routesProblems c igv item).map some) := by
  cases h : mapIndex item.Metadata.Annotations c.IngressRoutesAnnotation with
  | none => simp [validateRoutesAnnotation_absent c igv item h, routesProblems, h, Join_nil]
  | some text =>
    cases hp : (c.Parse text).2 with
    | some p =>
      rw [validateRoutesAnnotation_parseError c igv item text p h hp]
      simp only [routesProblems, h, hp]
      exact (Join_map_some_cons _ []).symm
    | none =>
      cases hf : igv.EnableAdvancedValidation with
      | false =>
        simp [validateRoutesAnnotation_syntaxOnly c igv item text h hp hf,
          routesProblems, h, hp, hf, Join_nil]
      | true =>
        rw [validateRoutesAnnotation_advanced c igv item text h hp hf]
        simp [routesProblems, h, hp, hf]

theorem routeErrors_wrapped [Inhabited Rest]
    (c : Collaborators FDef PDef RDef Reg Specs Met Rest)
    (igv : IngressV1Validator Reg Specs Met) (item : IngressV1Item) (routes : List RDef) :
    ∀ e ∈ routeErrors c igv item routes, IsAnnotationError c.IngressRoutesAnnotation e := by
  intro e he
  obtain ⟨r, _, hr⟩ := List.mem_filterMap.mp he
  cases hv : c.validateRoute (contextOf c item) (optionsOf igv) igv.Metrics r with
  | none => simp [hv] at hr
  | some x =>
    simp [hv] at hr
    exact ⟨x, hr.symm⟩

theorem filterProblems_wrapped
    (c : Collaborators FDef PDef RDef Reg Specs Met Rest)
    (igv : IngressV1Validator Reg Specs Met) (item : IngressV1Item) :
    ∀ e ∈ filterProblems c igv item, IsAnnotationError c.IngressFilterAnnotation e := by
  intro e he
  unfold filterProblems at he
  split at he
  · simp at he
  · split at he
    · simp at he; exact ⟨_, he⟩
    · split at he
      · split at he
        · simp at he; exact ⟨_, he⟩
        · simp at he
      · simp at he

theorem predicateProblems_wrapped
    (c : Collaborators FDef PDef RDef Reg Specs Met Rest)
    (igv : IngressV1Validator Reg Specs Met) (item : IngressV1Item) :
    ∀ e ∈ predicateProblems c igv item,
      IsAnnotationError c.IngressPredicateAnnotation e := by
  intro e he
  unfold predicateProblems at he
  split at he
  · simp at he
  · split at he
    · simp at he; exact ⟨_, he⟩
    · split at he
      · split at he
        · simp at he; exact ⟨_, he⟩
        · simp at he
      · simp at he

theorem routesProblems_wrapped [Inhabited Rest]
    (c : Collaborators FDef PDef RDef Reg Specs Met Rest)
    (igv : IngressV1Validator Reg Specs Met) (item : IngressV1Item) :
    ∀ e ∈ routesProblems c igv item, IsAnnotationError c.IngressRoutesAnnotation e := by
  intro e he
  unfold routesProblems at he
  split at he
  · simp at he
  · split at he
    · simp at he; exact ⟨_, he⟩
    · split at he
      · exact routeErrors_wrapped c igv item _ e he
      · simp at he

/-! ## When a check returns nil -/

theorem Join_map_some_eq_none_iff (l : List GoError) :
    Join (l.map some) = none ↔ l = [] := by
  cases l with
  | nil => simp [Join_nil]
  | cons e es => rw [Join_map_some_cons]; simp

theorem routeErrors_eq_nil_iff [Inhabited Rest]
    (c : Collaborators FDef PDef RDef Reg Specs Met Rest)
    (igv : IngressV1Validator Reg Specs Met) (item : IngressV1Item) (routes : List RDef) :
    routeErrors c igv item routes = [] ↔
      ∀ r ∈ routes,
        c.validateRoute (contextOf c item) (optionsOf igv) igv.Metrics r = none := by
  induction routes with
  | nil => simp [routeErrors]
  | cons r rs ih =>
    unfold routeErrors at ih ⊢
    cases hv : c.validateRoute (contextOf c item) (optionsOf igv) igv.Metrics r with
    | none => simp [List.filterMap_cons, hv, ih]
    | some x => simp [List.filterMap_cons, hv]

theorem validateFilterAnnotation_nil_iff
    (c : Collaborators FDef PDef RDef Reg Specs Met Rest)
    (igv : IngressV1Validator Reg Specs Met) (item : IngressV1Item) :
    ( validateFilterAnnotation c igv item).1 = none ↔
      (mapIndex item.Metadata.Annotations c.IngressFilterAnnotation = none ∨
        ∃ text, mapIndex item.Metadata.Annotations c.IngressFilterAnnotation = some text ∧
          (c.ParseFilters text).2 = none ∧
          (igv.EnableAdvancedValidation = false ∨
            c.validateFilters (contextOf c item) igv.FilterRegistry igv.Metrics
              (c.ParseFilters text).1 = none)) := by
  cases h : mapIndex item.Metadata.Annotations c.IngressFilterAnnotation with
  | none => simp [validateFilterAnnotation_absent c igv item h]
  | some text =>
    cases hp : (c.ParseFilters text).2 with
    | some p => simp [validateFilterAnnotation_parseError c igv item text p h hp, hp]
    | none =>
      cases hf : igv.EnableAdvancedValidation with
      | false => simp [validateFilterAnnotation_syntaxOnly c igv item text h hp hf, hp]
      | true =>
        rw [validateFilterAnnotation_advanced c igv item text h hp hf]
        simp only [Join_map_some_eq_none_iff]
        cases hv : c.validateFilters (contextOf c item) igv.FilterRegistry igv.Metrics
          (c.ParseFilters text).1 <;> simp [hp, hv]

theorem validatePredicateAnnotation_nil_iff
    (c : Collaborators FDef PDef RDef Reg Specs Met Rest)
    (igv : IngressV1Validator Reg Specs Met) (item : IngressV1Item) :
    ( validatePredicateAnnotation c igv item).1 = none ↔
      (mapIndex item.Metadata.Annotations c.IngressPredicateAnnotation = none ∨
        ∃ text,
          mapIndex item.Metadata.Annotations c.IngressPredicateAnnotation = some text ∧
          (c.ParsePredicates text).2 = none ∧
          (igv.EnableAdvancedValidation = false ∨
            c.validatePredicates (contextOf c item) igv.PredicateSpecs igv.Metrics
              (c.ParsePredicates text).1 = none)) := by
  cases h : mapIndex item.Metadata.Annotations c.IngressPredicateAnnotation with
  | none => simp [validatePredicateAnnotation_absent c igv item h]
  | some text =>
    cases hp : (c.ParsePredicates text).2 with
    | some p => simp [validatePredicateAnnotation_parseError c igv item text p h hp, hp]
    | none =>
      cases hf : igv.EnableAdvancedValidation with
      | false => simp [validatePredicateAnnotation_syntaxOnly c igv item text h hp hf, hp]
      | true =>
        rw [validatePredicateAnnotation_advanced c igv item text h hp hf]
        simp only [Join_map_some_eq_none_iff]
        cases hv : c.validatePredicates (contextOf c item) igv.PredicateSpecs igv.Metrics
          (c.ParsePredicates text).1 <;> simp [hp, hv]

theorem validateRoutesAnnotation_nil_iff [Inhabited Rest]
    (c : Collaborators FDef PDef RDef Reg Specs Met Rest)
    (igv : IngressV1Validator Reg Specs Met) (item : IngressV1Item) :
    ( validateRoutesAnnotation c igv item).1 = none ↔
      (mapIndex item.Metadata.Annotations c.IngressRoutesAnnotation = none ∨
        ∃ text, mapIndex item.Metadata.Annotations c.IngressRoutesAnnotation = some text ∧
          (c.Parse text).2 = none ∧
          (igv.EnableAdvancedValidation = false ∨
            ∀ r ∈ (c.Parse text).1,
              c.validateRoute (contextOf c item) (optionsOf igv) igv.Metrics r = none)) := by
  cases h : mapIndex item.Metadata.Annotations c.IngressRoutesAnnotation with
  | none => simp [validateRoutesAnnotation_absent c igv item h]
  | some text =>
    cases hp : (c.Parse text).2 with
    | some p => simp [validateRoutesAnnotation_parseError c igv item text p h hp, hp]
    | none =>
      cases hf : igv.EnableAdvancedValidation with
      | false => simp [validateRoutesAnnotation_syntaxOnly c igv item text h hp hf, hp]
      | true =>
        rw [validateRoutesAnnotation_advanced c igv item text h hp hf]
        simp [Join_map_some_eq_none_iff, routeErrors_eq_nil_iff, hp]

theorem Validate_fst [Inhabited Rest]
    (c : Collaborators FDef PDef RDef Reg Specs Met Rest)
    (igv : IngressV1Validator Reg Specs Met) (item : IngressV1Item) :
    (Validate c igv item).1 =
      Join [( validateFilterAnnotation c igv item).1,
        ( validatePredicateAnnotation c igv item).1,
        ( validateRoutesAnnotation c igv item).1] := rfl

theorem Validate_snd [Inhabited Rest]
    (c : Collaborators FDef PDef RDef Reg Specs Met Rest)
    (igv : IngressV1Validator Reg Specs Met) (item : IngressV1Item) :
    (Validate c igv item).2 =
      ( validateFilterAnnotation c igv item).2 ++
        ( validatePredicateAnnotation c igv item).2 ++
        ( validateRoutesAnnotation c igv item).2 := rfl

theorem problems_Validate [Inhabited Rest]
    (c : Collaborators FDef PDef RDef Reg Specs Met Rest)
    (igv : IngressV1Validator Reg Specs Met) (item : IngressV1Item) :
    problems (Validate c igv item).1 =
      filterProblems c igv item ++ predicateProblems c igv item ++
        routesProblems c igv item := by
  rw [Validate_fst, validateFilterAnnotation_fst, validatePredicateAnnotation_fst,
    validateRoutesAnnotation_fst]
  exact problems_Join3 _ _ _
    (fun e he => (filterProblems_wrapped c igv item e he).leaves_eq)
    (fun e he => (predicateProblems_wrapped c igv item e he).leaves_eq)
    (fun e he => (routesProblems_wrapped c igv item e he).leaves_eq)

theorem validateFilterAnnotation_problems
    (c : Collaborators FDef PDef RDef Reg Specs Met Rest)
    (igv : IngressV1Validator Reg Specs Met) (item : IngressV1Item) :
    problems ( validateFilterAnnotation c igv item).1 = filterProblems c igv item := by
  rw [validateFilterAnnotation_fst]
  exact problems_Join_atoms _
    (fun e he => (filterProblems_wrapped c igv item e he).leaves_eq)

theorem validatePredicateAnnotation_problems
    (c : Collaborators FDef PDef RDef Reg Specs Met Rest)
    (igv : IngressV1Validator Reg Specs Met) (item : IngressV1Item) :
    problems ( validatePredicateAnnotation c igv item).1 = predicateProblems c igv item := by
  rw [validatePredicateAnnotation_fst]
  exact problems_Join_atoms _
    (fun e he => (predicateProblems_wrapped c igv item e he).leaves_eq)

theorem validateRoutesAnnotation_problems [Inhabited Rest]
    (c : Collaborators FDef PDef RDef Reg Specs Met Rest)
    (igv : IngressV1Validator Reg Specs Met) (item : IngressV1Item) :
    problems ( validateRoutesAnnotation c igv item).1 = routesProblems c igv item := by
  rw [validateRoutesAnnotation_fst]
  exact problems_Join_atoms _
    (fun e he => (routesProblems_wrapped c igv item e he).leaves_eq)

theorem message_Validate [Inhabited Rest]
    (c : Collaborators FDef PDef RDef Reg Specs Met Rest)
    (igv : IngressV1Validator Reg Specs Met) (item : IngressV1Item) (err : GoError)
    (h : (Validate c igv item).1 = some err) :
    err.Error = newlineJoin ((filterProblems c igv item ++ predicateProblems c igv item ++
      routesProblems c igv item).map GoError.Error) := by
  rw [Validate_fst, validateFilterAnnotation_fst, validatePredicateAnnotation_fst,
    validateRoutesAnnotation_fst] at h
  exact message_Join3 _ _ _ err h

theorem routeErrors_length [Inhabited Rest]
    (c : Collaborators FDef PDef RDef Reg Specs Met Rest)
    (igv : IngressV1Validator Reg Specs Met) (item : IngressV1Item) (routes : List RDef) :
    (routeErrors c igv item routes).length =
      (routes.filter fun r =>
        (c.validateRoute (contextOf c item) (optionsOf igv) igv.Metrics r).isSome).length := by
  induction routes with
  | nil => simp [routeErrors]
  | cons r rs ih =>
    unfold routeErrors at ih ⊢
    cases hv : c.validateRoute (contextOf c item) (optionsOf igv) igv.Metrics r with
    | none => simp [List.filterMap_cons, List.filter_cons, hv, ih]
    | some x => simp [List.filterMap_cons, List.filter_cons, hv, ih]

theorem infix_newlineJoin (l : List String) (x : String) (hx : x ∈ l) :
    x.data <:+: (newlineJoin l).data := by
  induction l with
  | nil => exact absurd hx (List.not_mem_nil _)
  | cons s rest ih =>
    cases rest with
    | nil =>
      have hxs : x = s := by simpa using hx
      subst hxs
      exact List.infix_refl _
    | cons t r =>
      rw [newlineJoin_cons _ _ (List.cons_ne_nil _ _)]
      simp only [String.data_append]
      rcases List.mem_cons.mp hx with hxs | hxr
      · subst hxs
        exact ⟨[], "\n".data ++ (newlineJoin (t :: r)).data, by simp⟩
      · obtain ⟨pre, post, hpp⟩ := ih hxr
        exact ⟨s.data ++ "\n".data ++ pre, post, by simp [← hpp]⟩

theorem annotationErrorf_Error (key : String) (e : GoError) :
    (annotationErrorf key e).Error = annotationPrefix key ++ e.Error := by
  simp [annotationErrorf, GoError.Error]

theorem Validate_message_contains [Inhabited Rest]
    (c : Collaborators FDef PDef RDef Reg Specs Met Rest)
    (igv : IngressV1Validator Reg Specs Met) (item : IngressV1Item) (p : GoError)
    (hp : p ∈ filterProblems c igv item ++ predicateProblems c igv item ++
      routesProblems c igv item) :
    ∃ err, (Validate c igv item).1 = some err ∧ p.Error.data <:+: err.Error.data := by
  cases hV : (Validate c igv item).1 with
  | none =>
    have h0 := problems_Validate c igv item
    rw [hV] at h0
    rw [← h0] at hp
    exact absurd hp (List.not_mem_nil _)
  | some err =>
    refine ⟨err, rfl, ?_⟩
    rw [message_Validate c igv item err hV]
    exact infix_newlineJoin _ _ (List.mem_map_of_mem _ hp)

theorem lookup_eq_none_of_forall_ne (kvs : List (String × String)) (key : String)
    (h : ∀ kv ∈ kvs, kv.1 ≠ key) : kvs.lookup key = none := by
  induction kvs with
  | nil => rfl
  | cons kv rest ih =>
    obtain ⟨k, v⟩ := kv
    have hk : k ≠ key := h (k, v) (List.mem_cons_self _ _)
    have hb : (key == k) = false := by
      simp only [beq_eq_false_iff_ne]
      exact fun heq => hk heq.symm
    rw [List.lookup_cons, hb]
    exact ih (fun x hx => h x (List.mem_cons_of_mem _ hx))

theorem validateFilterAnnotation_noChecker
    (c : Collaborators FDef PDef RDef Reg Specs Met Rest)
    (igv : IngressV1Validator Reg Specs Met) (item : IngressV1Item)
    (hf : igv.EnableAdvancedValidation = false) :
    ( validateFilterAnnotation c igv item).2.filter Call.isChecker = [] := by
  cases h : mapIndex item.Metadata.Annotations c.IngressFilterAnnotation with
  | none => simp [ validateFilterAnnotation_absent c igv item h]
  | some text =>
    cases hp : (c.ParseFilters text).2 with
    | some p =>
      simp [ validateFilterAnnotation_parseError c igv item text p h hp, Call.isChecker]
    | none =>
      simp [ validateFilterAnnotation_syntaxOnly c igv item text h hp hf, Call.isChecker]

theorem validatePredicateAnnotation_noChecker
    (c : Collaborators FDef PDef RDef Reg Specs Met Rest)
    (igv : IngressV1Validator Reg Specs Met) (item : IngressV1Item)
    (hf : igv.EnableAdvancedValidation = false) :
    ( validatePredicateAnnotation c igv item).2.filter Call.isChecker = [] := by
  cases h : mapIndex item.Metadata.Annotations c.IngressPredicateAnnotation with
  | none => simp [ validatePredicateAnnotation_absent c igv item h]
  | some text =>
    cases hp : (c.ParsePredicates text).2 with
    | some p =>
      simp [ validatePredicateAnnotation_parseError c igv item text p h hp, Call.isChecker]
    | none =>
      simp [ validatePredicateAnnotation_syntaxOnly c igv item text h hp hf, Call.isChecker]

theorem validateRoutesAnnotation_noChecker [Inhabited Rest]
    (c : Collaborators FDef PDef RDef Reg Specs Met Rest)
    (igv : IngressV1Validator Reg Specs Met) (item : IngressV1Item)
    (hf : igv.EnableAdvancedValidation = false) :
    ( validateRoutesAnnotation c igv item).2.filter Call.isChecker = [] := by
  cases h : mapIndex item.Metadata.Annotations c.IngressRoutesAnnotation with
  | none => simp [ validateRoutesAnnotation_absent c igv item h]
  | some text =>
    cases hp : (c.Parse text).2 with
    | some p =>
      simp [ validateRoutesAnnotation_parseError c igv item text p h hp, Call.isChecker]
    | none =>
      simp [ validateRoutesAnnotation_syntaxOnly c igv item text h hp hf, Call.isChecker]

theorem intercalate_go_cons (sep acc t : String) (l : List String) :
    String.intercalate.go acc sep (t :: l) = acc ++ sep ++ String.intercalate.go t sep l := by
  induction l generalizing acc t with
  | nil => simp [String.intercalate.go]
  | cons u rest ih =>
    rw [String.intercalate.go, ih, ih t u]
    simp [String.append_assoc]

theorem newlineJoin_eq_intercalate (l : List String) :
    newlineJoin l = "\n".intercalate l := by
  induction l with
  | nil => rfl
  | cons s rest ih =>
    cases rest with
    | nil => simp [newlineJoin, String.intercalate, String.intercalate.go]
    | cons t r =>
      rw [newlineJoin_cons _ _ (List.cons_ne_nil _ _), ih]
      simp only [String.intercalate]
      rw [intercalate_go_cons]

theorem members_Join (errs : List error) : members (Join errs) = errs.filterMap id := by
  by_cases h : errs.filterMap id = []
  · rw [Join_of_nil _ h, h]; rfl
  · rw [Join_of_ne_nil _ h]; rfl

theorem leavesList_members (r : error) : leavesList (members r) = problems r := by
  cases r with
  | none => simp [members, problems, leavesList]
  | some e =>
    cases e with
    | leaf msg => simp [members, problems, leavesList, GoError.leaves]
    | wrap msg inner => simp [members, problems, leavesList, GoError.leaves]
    | join l => simp [members, problems, GoError.leaves]

theorem routesLoopBody_congr
    (c : Collaborators FDef PDef RDef Reg Specs Met Rest)
    (igv : IngressV1Validator Reg Specs Met) (item1 item2 : IngressV1Item)
    (opts : Options Reg Specs Rest)
    (hns : item1.Metadata.Namespace = item2.Metadata.Namespace)
    (hname : item1.Metadata.Name = item2.Metadata.Name) :
    routesLoopBody c igv item1 opts = routesLoopBody c igv item2 opts := by
  funext acc r
  simp only [routesLoopBody, hns, hname]

theorem filterProblems_length_le
    (c : Collaborators FDef PDef RDef Reg Specs Met Rest)
    (igv : IngressV1Validator Reg Specs Met) (item : IngressV1Item) :
    (filterProblems c igv item).length ≤ 1 := by
  unfold filterProblems
  repeat' split
  all_goals simp

theorem predicateProblems_length_le
    (c : Collaborators FDef PDef RDef Reg Specs Met Rest)
    (igv : IngressV1Validator Reg Specs Met) (item : IngressV1Item) :
    (predicateProblems c igv item).length ≤ 1 := by
  unfold predicateProblems
  repeat' split
  all_goals simp

theorem validateFilterAnnotation_calls [Inhabited Rest]
    (c : Collaborators FDef PDef RDef Reg Specs Met Rest)
    (igv : IngressV1Validator Reg Specs Met) (item : IngressV1Item) :
    ∀ call ∈ ( validateFilterAnnotation c igv item).2,
      receivesSpecifiedArguments c igv item call := by
  intro call hcall
  cases h : mapIndex item.Metadata.Annotations c.IngressFilterAnnotation with
  | none => simp [ validateFilterAnnotation_absent c igv item h] at hcall
  | some text =>
    cases hp : (c.ParseFilters text).2 with
    | some p =>
      simp [ validateFilterAnnotation_parseError c igv item text p h hp] at hcall
      subst hcall
      trivial
    | none =>
      cases hf : igv.EnableAdvancedValidation with
      | false =>
        simp [ validateFilterAnnotation_syntaxOnly c igv item text h hp hf] at hcall
        subst hcall
        trivial
      | true =>
        simp [ validateFilterAnnotation_advanced c igv item text h hp hf] at hcall
        rcases hcall with rfl | rfl
        · trivial
        · exact ⟨rfl, rfl, rfl, text, h, rfl⟩

theorem validatePredicateAnnotation_calls [Inhabited Rest]
    (c : Collaborators FDef PDef RDef Reg Specs Met Rest)
    (igv : IngressV1Validator Reg Specs Met) (item : IngressV1Item) :
    ∀ call ∈ ( validatePredicateAnnotation c igv item).2,
      receivesSpecifiedArguments c igv item call := by
  intro call hcall
  cases h : mapIndex item.Metadata.Annotations c.IngressPredicateAnnotation with
  | none => simp [ validatePredicateAnnotation_absent c igv item h] at hcall
  | some text =>
    cases hp : (c.ParsePredicates text).2 with
    | some p =>
      simp [ validatePredicateAnnotation_parseError c igv item text p h hp] at hcall
      subst hcall
      trivial
    | none =>
      cases hf : igv.EnableAdvancedValidation with
      | false =>
        simp [ validatePredicateAnnotation_syntaxOnly c igv item text h hp hf] at hcall
        subst hcall
        trivial
      | true =>
        simp [ validatePredicateAnnotation_advanced c igv item text h hp hf] at hcall
        rcases hcall with rfl | rfl
        · trivial
        · exact ⟨rfl, rfl, rfl, text, h, rfl⟩

theorem validateRoutesAnnotation_calls [Inhabited Rest]
    (c : Collaborators FDef PDef RDef Reg Specs Met Rest)
    (igv : IngressV1Validator Reg Specs Met) (item : IngressV1Item) :
    ∀ call ∈ ( validateRoutesAnnotation c igv item).2,
      receivesSpecifiedArguments c igv item call := by
  intro call hcall
  cases h : mapIndex item.Metadata.Annotations c.IngressRoutesAnnotation with
  | none => simp [ validateRoutesAnnotation_absent c igv item h] at hcall
  | some text =>
    cases hp : (c.Parse text).2 with
    | some p =>
      simp [ validateRoutesAnnotation_parseError c igv item text p h hp] at hcall
      subst hcall
      trivial
    | none =>
      cases hf : igv.EnableAdvancedValidation with
      | false =>
        simp [ validateRoutesAnnotation_syntaxOnly c igv item text h hp hf] at hcall
        subst hcall
        trivial
      | true =>
        rw [validateRoutesAnnotation_advanced c igv item text h hp hf] at hcall
        rcases List.mem_cons.mp hcall with rfl | hmem
        · trivial
        · obtain ⟨r, hr, rfl⟩ := List.mem_map.mp hmem
          exact ⟨rfl, rfl, rfl, text, h, hr⟩

theorem Validate_eq_none_of_problems_nil [Inhabited Rest]
    (c : Collaborators FDef PDef RDef Reg Specs Met Rest)
    (igv : IngressV1Validator Reg Specs Met) (item : IngressV1Item)
    (h : problems (Validate c igv item).1 = []) : (Validate c igv item).1 = none := by
  rw [problems_Validate] at h
  obtain ⟨h12, h3⟩ := List.append_eq_nil.mp h
  obtain ⟨h1, h2⟩ := List.append_eq_nil.mp h12
  rw [Validate_fst, validateFilterAnnotation_fst, validatePredicateAnnotation_fst,
    validateRoutesAnnotation_fst, h1, h2, h3]
  rfl

theorem filterProblems_syntaxOnly
    (c : Collaborators FDef PDef RDef Reg Specs Met Rest)
    (igv : IngressV1Validator Reg Specs Met) (item : IngressV1Item)
    (hf : igv.EnableAdvancedValidation = false) :
    filterProblems c igv item =
      parseProblem c.IngressFilterAnnotation (fun text => (c.ParseFilters text).2)
        (mapIndex item.Metadata.Annotations c.IngressFilterAnnotation) := by
  unfold filterProblems parseProblem
  cases mapIndex item.Metadata.Annotations c.IngressFilterAnnotation with
  | none => rfl
  | some text => cases hp : (c.ParseFilters text).2 <;> simp [hp, hf]

theorem predicateProblems_syntaxOnly
    (c : Collaborators FDef PDef RDef Reg Specs Met Rest)
    (igv : IngressV1Validator Reg Specs Met) (item : IngressV1Item)
    (hf : igv.EnableAdvancedValidation = false) :
    predicateProblems c igv item =
      parseProblem c.IngressPredicateAnnotation (fun text => (c.ParsePredicates text).2)
        (mapIndex item.Metadata.Annotations c.IngressPredicateAnnotation) := by
  unfold predicateProblems parseProblem
  cases mapIndex item.Metadata.Annotations c.IngressPredicateAnnotation with
  | none => rfl
  | some text => cases hp : (c.ParsePredicates text).2 <;> simp [hp, hf]

theorem routesProblems_syntaxOnly [Inhabited Rest]
    (c : Collaborators FDef PDef RDef Reg Specs Met Rest)
    (igv : IngressV1Validator Reg Specs Met) (item : IngressV1Item)
    (hf : igv.EnableAdvancedValidation = false) :
    routesProblems c igv item =
      parseProblem c.IngressRoutesAnnotation (fun text => (c.Parse text).2)
        (mapIndex item.Metadata.Annotations c.IngressRoutesAnnotation) := by
  unfold routesProblems parseProblem
  cases mapIndex item.Metadata.Annotations c.IngressRoutesAnnotation with
  | none => rfl
  | some text => cases hp : (c.Parse text).2 <;> simp [hp, hf]

theorem parseProblem_sublist_filterProblems
    (c : Collaborators FDef PDef RDef Reg Specs Met Rest)
    (igv : IngressV1Validator Reg Specs Met) (item : IngressV1Item) :
    (parseProblem c.IngressFilterAnnotation (fun text => (c.ParseFilters text).2)
      (mapIndex item.Metadata.Annotations c.IngressFilterAnnotation)).Sublist
      (filterProblems c igv item) := by
  unfold filterProblems parseProblem
  cases mapIndex item.Metadata.Annotations c.IngressFilterAnnotation with
  | none => exact List.Sublist.refl _
  | some text => cases hp : (c.ParseFilters text).2 <;> simp [hp]

theorem parseProblem_sublist_predicateProblems
    (c : Collaborators FDef PDef RDef Reg Specs Met Rest)
    (igv : IngressV1Validator Reg Specs Met) (item : IngressV1Item) :
    (parseProblem c.IngressPredicateAnnotation (fun text => (c.ParsePredicates text).2)
      (mapIndex item.Metadata.Annotations c.IngressPredicateAnnotation)).Sublist
      (predicateProblems c igv item) := by
  unfold predicateProblems parseProblem
  cases mapIndex item.Metadata.Annotations c.IngressPredicateAnnotation with
  | none => exact List.Sublist.refl _
  | some text => cases hp : (c.ParsePredicates text).2 <;> simp [hp]

theorem parseProblem_sublist_routesProblems [Inhabited Rest]
    (c : Collaborators FDef PDef RDef Reg Specs Met Rest)
    (igv : IngressV1Validator Reg Specs Met) (item : IngressV1Item) :
    (parseProblem c.IngressRoutesAnnotation (fun text => (c.Parse text).2)
      (mapIndex item.Metadata.Annotations c.IngressRoutesAnnotation)).Sublist
      (routesProblems c igv item) := by
  unfold routesProblems parseProblem
  cases mapIndex item.Metadata.Annotations c.IngressRoutesAnnotation with
  | none => exact List.Sublist.refl _
  | some text => cases hp : (c.Parse text).2 <;> simp [hp]

theorem members_Validate [Inhabited Rest]
    (c : Collaborators FDef PDef RDef Reg Specs Met Rest)
    (igv : IngressV1Validator Reg Specs Met) (item : IngressV1Item) :
    members (Validate c igv item).1 =
      ( validateFilterAnnotation c igv item).1.toList ++
        ( validatePredicateAnnotation c igv item).1.toList ++
        ( validateRoutesAnnotation c igv item).1.toList := by
  rw [Validate_fst, members_Join]
  cases ( validateFilterAnnotation c igv item).1 <;>
    cases ( validatePredicateAnnotation c igv item).1 <;>
    cases ( validateRoutesAnnotation c igv item).1 <;> rfl

theorem Join_map_some_cases (l : List GoError) :
    (l = [] ∧ Join (l.map some) = none) ∨
      (l ≠ [] ∧ Join (l.map some) = some (.join l)) := by
  cases l with
  | nil => exact Or.inl ⟨rfl, rfl⟩
  | cons e es => exact Or.inr ⟨List.cons_ne_nil _ _, Join_map_some_cons e es⟩

/-! ## The claims -/

/-- C1: `Validate` returns nil if and only if each of the three annotations is
absent from the annotation map, or is present, parses without error and either
advanced validation is off or its semantic checker reports no error (the filter
check, the predicate check, the route check of every parsed route); in every other
case the result is a non-nil error. -/
theorem Validate_nil_iff [Inhabited Rest]
    (c : Collaborators FDef PDef RDef Reg Specs Met Rest)
    (igv : IngressV1Validator Reg Specs Met) (item : IngressV1Item) :
    (Validate c igv item).1 = none ↔
      (mapIndex item.Metadata.Annotations c.IngressFilterAnnotation = none ∨
        ∃ text, mapIndex item.Metadata.Annotations c.IngressFilterAnnotation = some text ∧
          (c.ParseFilters text).2 = none ∧
          (igv.EnableAdvancedValidation = false ∨
            c.validateFilters (contextOf c item) igv.FilterRegistry igv.Metrics
              (c.ParseFilters text).1 = none)) ∧
      (mapIndex item.Metadata.Annotations c.IngressPredicateAnnotation = none ∨
        ∃ text,
          mapIndex item.Metadata.Annotations c.IngressPredicateAnnotation = some text ∧
          (c.ParsePredicates text).2 = none ∧
          (igv.EnableAdvancedValidation = false ∨
            c.validatePredicates (contextOf c item) igv.PredicateSpecs igv.Metrics
              (c.ParsePredicates text).1 = none)) ∧
      (mapIndex item.Metadata.Annotations c.IngressRoutesAnnotation = none ∨
        ∃ text, mapIndex item.Metadata.Annotations c.IngressRoutesAnnotation = some text ∧
          (c.Parse text).2 = none ∧
          (igv.EnableAdvancedValidation = false ∨
            ∀ r ∈ (c.Parse text).1,
              c.validateRoute (contextOf c item) (optionsOf igv) igv.Metrics r = none)) := by
  rw [Validate_fst, Join_eq_none_iff, ← validateFilterAnnotation_nil_iff,
    ← validatePredicateAnnotation_nil_iff, ← validateRoutesAnnotation_nil_iff]
  simp

/-- C2: for each of the three annotations, when the annotation is present and its
parser returns an error, the per-annotation check yields exactly one error, the
parse error wrapped with the annotation's key, and makes the parser call only: the
semantic checker is called zero times, whatever the value of
`EnableAdvancedValidation`. -/
theorem parse_error_yields_one_error_and_no_check [Inhabited Rest]
    (c : Collaborators FDef PDef RDef Reg Specs Met Rest)
    (igv : IngressV1Validator Reg Specs Met) (item : IngressV1Item) :
    (∀ text p,
      mapIndex item.Metadata.Annotations c.IngressFilterAnnotation = some text →
      (c.ParseFilters text).2 = some p →
        members ( validateFilterAnnotation c igv item).1 =
            [annotationErrorf c.IngressFilterAnnotation p] ∧
          problems ( validateFilterAnnotation c igv item).1 =
            [annotationErrorf c.IngressFilterAnnotation p] ∧
          ( validateFilterAnnotation c igv item).2 = [Call.ParseFilters text] ∧
          (( validateFilterAnnotation c igv item).2.filter Call.isChecker).length = 0) ∧
    (∀ text p,
      mapIndex item.Metadata.Annotations c.IngressPredicateAnnotation = some text →
      (c.ParsePredicates text).2 = some p →
        members ( validatePredicateAnnotation c igv item).1 =
            [annotationErrorf c.IngressPredicateAnnotation p] ∧
          problems ( validatePredicateAnnotation c igv item).1 =
            [annotationErrorf c.IngressPredicateAnnotation p] ∧
          ( validatePredicateAnnotation c igv item).2 = [Call.ParsePredicates text] ∧
          (( validatePredicateAnnotation c igv item).2.filter Call.isChecker).length = 0) ∧
    (∀ text p,
      mapIndex item.Metadata.Annotations c.IngressRoutesAnnotation = some text →
      (c.Parse text).2 = some p →
        members ( validateRoutesAnnotation c igv item).1 =
            [annotationErrorf c.IngressRoutesAnnotation p] ∧
          problems ( validateRoutesAnnotation c igv item).1 =
            [annotationErrorf c.IngressRoutesAnnotation p] ∧
          ( validateRoutesAnnotation c igv item).2 = [Call.Parse text] ∧
          (( validateRoutesAnnotation c igv item).2.filter Call.isChecker).length = 0) := by
  refine ⟨fun text p h hp => ?_, fun text p h hp => ?_, fun text p h hp => ?_⟩
  · rw [validateFilterAnnotation_parseError c igv item text p h hp]
    simp [members, problems, GoError.leaves, leavesList, annotationErrorf, Call.isChecker]
  · rw [validatePredicateAnnotation_parseError c igv item text p h hp]
    simp [members, problems, GoError.leaves, leavesList, annotationErrorf, Call.isChecker]
  · rw [validateRoutesAnnotation_parseError c igv item text p h hp]
    simp [members, problems, GoError.leaves, leavesList, annotationErrorf, Call.isChecker]

/-- Witness of C2: the item whose three annotations hold `foo(`, with advanced
validation enabled. -/
theorem parse_error_yields_one_error_and_no_check_witness :
    (mapIndex exampleItemMalformed.Metadata.Annotations
        exampleCollaborators.IngressFilterAnnotation = some "foo(" ∧
      (exampleCollaborators.ParseFilters "foo(").2 = some (.leaf "parse failed") ∧
      problems ( validateFilterAnnotation exampleCollaborators (exampleValidator true)
        exampleItemMalformed).1 =
        [annotationErrorf "zalando.org/skipper-filter" (.leaf "parse failed")] ∧
      ( validateFilterAnnotation exampleCollaborators (exampleValidator true)
        exampleItemMalformed).2 = [Call.ParseFilters "foo("]) ∧
    (problems ( validatePredicateAnnotation exampleCollaborators (exampleValidator true)
        exampleItemMalformed).1 =
        [annotationErrorf "zalando.org/skipper-predicate" (.leaf "parse failed")] ∧
      ( validatePredicateAnnotation exampleCollaborators (exampleValidator true)
        exampleItemMalformed).2 = [Call.ParsePredicates "foo("]) ∧
    (problems ( validateRoutesAnnotation exampleCollaborators (exampleValidator true)
        exampleItemMalformed).1 =
        [annotationErrorf "zalando.org/skipper-routes" (.leaf "parse failed")] ∧
      ( validateRoutesAnnotation exampleCollaborators (exampleValidator true)
        exampleItemMalformed).2 = [Call.Parse "foo("]) :=
  have h := parse_error_yields_one_error_and_no_check exampleCollaborators
    (exampleValidator true) exampleItemMalformed
  have hf := h.1 "foo(" (.leaf "parse failed") rfl rfl
  have hp := h.2.1 "foo(" (.leaf "parse failed") rfl rfl
  have hr := h.2.2 "foo(" (.leaf "parse failed") rfl rfl
  ⟨⟨rfl, rfl, hf.2.1, hf.2.2.1⟩, ⟨hp.2.1, hp.2.2.1⟩, ⟨hr.2.1, hr.2.2.1⟩⟩

/-- C3: when the routes annotation is present and parses into N routes, with
advanced validation enabled, the route checker is called on every one of the N
routes in order (a failing route does not stop the loop), and the annotation
contributes to the combined error exactly one error per failing route, in route
order: the `fmt.Errorf` wrapper whose message is `invalid "<routes key>" annotation: `
followed by the message of that route's checker error and whose wrapped error is
that checker error. K routes failing give K errors, and none failing gives nil. -/
theorem routes_checked_all_one_error_per_failing_route [Inhabited Rest]
    (c : Collaborators FDef PDef RDef Reg Specs Met Rest)
    (igv : IngressV1Validator Reg Specs Met) (item : IngressV1Item) (text : String)
    (h : mapIndex item.Metadata.Annotations c.IngressRoutesAnnotation = some text)
    (hp : (c.Parse text).2 = none) (hf : igv.EnableAdvancedValidation = true) :
    ( validateRoutesAnnotation c igv item).2 =
        Call.Parse text :: (c.Parse text).1.map (fun r =>
          Call.validateRoute
            { Namespace := item.Metadata.Namespace, Name := item.Metadata.Name,
              ResourceType := c.ResourceTypeIngress }
            { FilterRegistry := igv.FilterRegistry, Predicates := igv.PredicateSpecs,
              Others := default }
            igv.Metrics r) ∧
      problems ( validateRoutesAnnotation c igv item).1 =
        ((c.Parse text).1.filterMap fun r =>
          (c.validateRoute
            { Namespace := item.Metadata.Namespace, Name := item.Metadata.Name,
              ResourceType := c.ResourceTypeIngress }
            { FilterRegistry := igv.FilterRegistry, Predicates := igv.PredicateSpecs,
              Others := default }
            igv.Metrics r).map
            (fun e => GoError.wrap
              ("invalid \"" ++ c.IngressRoutesAnnotation ++ "\" annotation: " ++ e.Error) e)) ∧
      (problems ( validateRoutesAnnotation c igv item).1).length =
        ((c.Parse text).1.filter (fun r =>
          (c.validateRoute (contextOf c item) (optionsOf igv) igv.Metrics r).isSome)).length ∧
      problems (Validate c igv item).1 =
        problems ( validateFilterAnnotation c igv item).1 ++
          problems ( validatePredicateAnnotation c igv item).1 ++
          problems ( validateRoutesAnnotation c igv item).1 ∧
      ((∀ r ∈ (c.Parse text).1,
          c.validateRoute (contextOf c item) (optionsOf igv) igv.Metrics r = none) →
        ( validateRoutesAnnotation c igv item).1 = none) := by
  have hprob : problems ( validateRoutesAnnotation c igv item).1 =
      routeErrors c igv item (c.Parse text).1 := by
    rw [validateRoutesAnnotation_problems]
    simp [routesProblems, h, hp, hf]
  refine ⟨?_, ?_, ?_, ?_, ?_⟩
  · rw [validateRoutesAnnotation_advanced c igv item text h hp hf]; rfl
  · rw [hprob]; rfl
  · rw [hprob, routeErrors_length]
  · rw [problems_Validate, validateFilterAnnotation_problems,
      validatePredicateAnnotation_problems, validateRoutesAnnotation_problems]
  · intro hall
    rw [validateRoutesAnnotation_advanced c igv item text h hp hf]
    exact (Join_map_some_eq_none_iff _).mpr
      ((routeErrors_eq_nil_iff c igv item _).mpr hall)

/-- Witness of C3: the routes `x`, `a`, `y`, of which the first and the last fail. -/
theorem routes_checked_all_one_error_per_failing_route_witness :
    mapIndex exampleItemUnknown.Metadata.Annotations
        exampleCollaborators.IngressRoutesAnnotation = some "xay" ∧
      (exampleCollaborators.Parse "xay") = (["x", "a", "y"], none) ∧
      ( validateRoutesAnnotation exampleCollaborators (exampleValidator true)
        exampleItemUnknown).2 =
        [Call.Parse "xay",
          Call.validateRoute ⟨"default", "ing", "ingress"⟩ ⟨["a"], ["p"], ()⟩ () "x",
          Call.validateRoute ⟨"default", "ing", "ingress"⟩ ⟨["a"], ["p"], ()⟩ () "a",
          Call.validateRoute ⟨"default", "ing", "ingress"⟩ ⟨["a"], ["p"], ()⟩ () "y"] ∧
      problems ( validateRoutesAnnotation exampleCollaborators (exampleValidator true)
        exampleItemUnknown).1 =
        [GoError.wrap "invalid \"zalando.org/skipper-routes\" annotation: \"x\" not found"
            (.leaf "\"x\" not found"),
          GoError.wrap "invalid \"zalando.org/skipper-routes\" annotation: \"y\" not found"
            (.leaf "\"y\" not found")] :=
  have h := routes_checked_all_one_error_per_failing_route exampleCollaborators
    (exampleValidator true) exampleItemUnknown "xay" rfl rfl rfl
  ⟨rfl, rfl, h.1, h.2.1.trans rfl⟩

/-- C4: when the filter annotation (respectively the predicate annotation) is
present and parses, advanced validation is enabled and the filter checker
(respectively the predicate checker) returns an error `e`, then `Validate` returns
a non-nil error whose message contains the text `invalid "<key>" annotation: `
immediately followed by the message of `e`, for the key of that annotation; hence
every text occurring in the message of `e`, such as the name of an unregistered
kind, occurs in the message of `Validate`. -/
theorem semantic_error_reported_with_annotation_key [Inhabited Rest]
    (c : Collaborators FDef PDef RDef Reg Specs Met Rest)
    (igv : IngressV1Validator Reg Specs Met) (item : IngressV1Item)
    (hf : igv.EnableAdvancedValidation = true) :
    (∀ text e,
      mapIndex item.Metadata.Annotations c.IngressFilterAnnotation = some text →
      (c.ParseFilters text).2 = none →
      c.validateFilters
        { Namespace := item.Metadata.Namespace, Name := item.Metadata.Name,
          ResourceType := c.ResourceTypeIngress }
        igv.FilterRegistry igv.Metrics (c.ParseFilters text).1 = some e →
      ∃ err, (Validate c igv item).1 = some err ∧
        ("invalid \"" ++ c.IngressFilterAnnotation ++ "\" annotation: " ++ e.Error).data <:+:
          err.Error.data ∧
        ∀ kind : String, kind.data <:+: e.Error.data → kind.data <:+: err.Error.data) ∧
    (∀ text e,
      mapIndex item.Metadata.Annotations c.IngressPredicateAnnotation = some text →
      (c.ParsePredicates text).2 = none →
      c.validatePredicates
        { Namespace := item.Metadata.Namespace, Name := item.Metadata.Name,
          ResourceType := c.ResourceTypeIngress }
        igv.PredicateSpecs igv.Metrics (c.ParsePredicates text).1 = some e →
      ∃ err, (Validate c igv item).1 = some err ∧
        ("invalid \"" ++ c.IngressPredicateAnnotation ++ "\" annotation: " ++
          e.Error).data <:+: err.Error.data ∧
        ∀ kind : String, kind.data <:+: e.Error.data → kind.data <:+: err.Error.data) := by
  constructor
  · intro text e h hp he
    have he2 : c.validateFilters (contextOf c item) igv.FilterRegistry igv.Metrics
        (c.ParseFilters text).1 = some e := he
    have hmem : annotationErrorf c.IngressFilterAnnotation e ∈
        filterProblems c igv item ++ predicateProblems c igv item ++
          routesProblems c igv item := by
      simp [filterProblems, h, hp, hf, he2]
    obtain ⟨err, herr, hin⟩ := Validate_message_contains c igv item _ hmem
    have hmsg : (annotationErrorf c.IngressFilterAnnotation e).Error =
        "invalid \"" ++ c.IngressFilterAnnotation ++ "\" annotation: " ++ e.Error := rfl
    rw [hmsg] at hin
    refine ⟨err, herr, hin, fun kind hk => ?_⟩
    refine List.IsInfix.trans (List.IsInfix.trans hk ?_) hin
    rw [String.data_append]
    exact (List.suffix_append _ _).isInfix
  · intro text e h hp he
    have he2 : c.validatePredicates (contextOf c item) igv.PredicateSpecs igv.Metrics
        (c.ParsePredicates text).1 = some e := he
    have hmem : annotationErrorf c.IngressPredicateAnnotation e ∈
        filterProblems c igv item ++ predicateProblems c igv item ++
          routesProblems c igv item := by
      simp [predicateProblems, h, hp, hf, he2]
    obtain ⟨err, herr, hin⟩ := Validate_message_contains c igv item _ hmem
    have hmsg : (annotationErrorf c.IngressPredicateAnnotation e).Error =
        "invalid \"" ++ c.IngressPredicateAnnotation ++ "\" annotation: " ++ e.Error := rfl
    rw [hmsg] at hin
    refine ⟨err, herr, hin, fun kind hk => ?_⟩
    refine List.IsInfix.trans (List.IsInfix.trans hk ?_) hin
    rw [String.data_append]
    exact (List.suffix_append _ _).isInfix

/-- Witness of C4: the filter `foo` and the predicate `bar` are not known to the
validator; the message of `Validate` holds the text
`invalid "zalando.org/skipper-filter" annotation: "foo" not found` and the text
`invalid "zalando.org/skipper-predicate" annotation: "bar" not found`, and so
names `foo`. -/
theorem semantic_error_reported_with_annotation_key_witness :
    (exampleValidator true).EnableAdvancedValidation = true ∧
      (∃ err, (Validate exampleCollaborators (exampleValidator true)
          exampleItemUnknown).1 = some err ∧
        "invalid \"zalando.org/skipper-filter\" annotation: \"foo\" not found".data <:+:
          err.Error.data ∧
        "foo".data <:+: err.Error.data) ∧
      (∃ err, (Validate exampleCollaborators (exampleValidator true)
          exampleItemUnknown).1 = some err ∧
        "invalid \"zalando.org/skipper-predicate\" annotation: \"bar\" not found".data <:+:
          err.Error.data) :=
  have h := semantic_error_reported_with_annotation_key exampleCollaborators
    (exampleValidator true) exampleItemUnknown rfl
  ⟨rfl,
    (h.1 "foo" (.leaf "\"foo\" not found") rfl rfl rfl).imp fun _ he =>
      ⟨he.1, he.2.1, he.2.2 "foo" (by decide)⟩,
    (h.2 "bar" (.leaf "\"bar\" not found") rfl rfl rfl).imp fun _ he => ⟨he.1, he.2.1⟩⟩

/-- C5: when `EnableAdvancedValidation` is false, `Validate` calls no semantic
checker and its result is determined by the annotation keys and the parsers alone:
it is the same for every filter registry, every list of predicate specs, every
metrics sink and every behaviour of the three checkers, and it is nil whenever
every present annotation parses without error. -/
theorem syntax_only_mode_ignores_checkers [Inhabited Rest]
    (c : Collaborators FDef PDef RDef Reg Specs Met Rest)
    (igv : IngressV1Validator Reg Specs Met) (item : IngressV1Item)
    (hf : igv.EnableAdvancedValidation = false) :
    (Validate c igv item).2.filter Call.isChecker = [] ∧
      (∀ (c2 : Collaborators FDef PDef RDef Reg Specs Met Rest)
        (igv2 : IngressV1Validator Reg Specs Met),
        igv2.EnableAdvancedValidation = false →
        c2.IngressFilterAnnotation = c.IngressFilterAnnotation →
        c2.IngressPredicateAnnotation = c.IngressPredicateAnnotation →
        c2.IngressRoutesAnnotation = c.IngressRoutesAnnotation →
        c2.ParseFilters = c.ParseFilters →
        c2.ParsePredicates = c.ParsePredicates →
        c2.Parse = c.Parse →
        (Validate c2 igv2 item).1 = (Validate c igv item).1) ∧
      ((∀ text, mapIndex item.Metadata.Annotations c.IngressFilterAnnotation = some text →
          (c.ParseFilters text).2 = none) →
        (∀ text, mapIndex item.Metadata.Annotations c.IngressPredicateAnnotation = some text →
          (c.ParsePredicates text).2 = none) →
        (∀ text, mapIndex item.Metadata.Annotations c.IngressRoutesAnnotation = some text →
          (c.Parse text).2 = none) →
        (Validate c igv item).1 = none) := by
  refine ⟨?_, ?_, ?_⟩
  · rw [Validate_snd, List.filter_append, List.filter_append,
      validateFilterAnnotation_noChecker c igv item hf,
      validatePredicateAnnotation_noChecker c igv item hf,
      validateRoutesAnnotation_noChecker c igv item hf]
    rfl
  · intro c2 igv2 hf2 hkf hkp hkr hpf hpp hpr
    have e1 : filterProblems c2 igv2 item = filterProblems c igv item := by
      simp only [filterProblems, hf, hf2, hkf, hpf]
      rfl
    have e2 : predicateProblems c2 igv2 item = predicateProblems c igv item := by
      simp only [predicateProblems, hf, hf2, hkp, hpp]
      rfl
    have e3 : routesProblems c2 igv2 item = routesProblems c igv item := by
      simp only [routesProblems, hf, hf2, hkr, hpr]
      rfl
    rw [Validate_fst, Validate_fst, validateFilterAnnotation_fst,
      validatePredicateAnnotation_fst, validateRoutesAnnotation_fst,
      validateFilterAnnotation_fst, validatePredicateAnnotation_fst,
      validateRoutesAnnotation_fst, e1, e2, e3]
  · intro h1 h2 h3
    rw [Validate_fst, Join_eq_none_iff]
    intro e he
    simp only [List.mem_cons, List.mem_singleton, List.not_mem_nil, or_false] at he
    rcases he with rfl | rfl | rfl
    · rw [validateFilterAnnotation_nil_iff]
      cases h : mapIndex item.Metadata.Annotations c.IngressFilterAnnotation with
      | none => exact Or.inl rfl
      | some text => exact Or.inr ⟨text, rfl, h1 text h, Or.inl hf⟩
    · rw [validatePredicateAnnotation_nil_iff]
      cases h : mapIndex item.Metadata.Annotations c.IngressPredicateAnnotation with
      | none => exact Or.inl rfl
      | some text => exact Or.inr ⟨text, rfl, h2 text h, Or.inl hf⟩
    · rw [validateRoutesAnnotation_nil_iff]
      cases h : mapIndex item.Metadata.Annotations c.IngressRoutesAnnotation with
      | none => exact Or.inl rfl
      | some text => exact Or.inr ⟨text, rfl, h3 text h, Or.inl hf⟩

/-- Witness of C5: with advanced validation off, the item naming the unknown
filter `foo`, the unknown predicate `bar` and the unknown routes `x` and `y` is
accepted with the three parser calls only, and the result is the same for a
validator with an empty registry and no predicate specs. -/
theorem syntax_only_mode_ignores_checkers_witness :
    (exampleValidator false).EnableAdvancedValidation = false ∧
      (Validate exampleCollaborators (exampleValidator false) exampleItemUnknown).2.filter
        Call.isChecker = [] ∧
      (Validate exampleCollaborators
        { FilterRegistry := [], PredicateSpecs := [], Metrics := (),
          EnableAdvancedValidation := false } exampleItemUnknown).1 =
        (Validate exampleCollaborators (exampleValidator false) exampleItemUnknown).1 ∧
      (Validate exampleCollaborators (exampleValidator false) exampleItemUnknown).1 = none :=
  have h := syntax_only_mode_ignores_checkers exampleCollaborators (exampleValidator false)
    exampleItemUnknown rfl
  ⟨rfl, h.1,
    h.2.1 exampleCollaborators
      { FilterRegistry := [], PredicateSpecs := [], Metrics := (),
        EnableAdvancedValidation := false } rfl rfl rfl rfl rfl rfl rfl,
    h.2.2
      (fun text ht => by
        have : text = "foo" := (Option.some.inj ht).symm
        subst this; rfl)
      (fun text ht => by
        have : text = "bar" := (Option.some.inj ht).symm
        subst this; rfl)
      (fun text ht => by
        have : text = "xay" := (Option.some.inj ht).symm
        subst this; rfl)⟩

/-- C6: when the annotation map holds none of the three annotation keys, in
particular when it is nil, empty, or holds other keys only, `Validate` returns nil
under every configuration and calls neither a parser nor a semantic checker. -/
theorem no_recognized_annotation_returns_nil [Inhabited Rest]
    (c : Collaborators FDef PDef RDef Reg Specs Met Rest)
    (igv : IngressV1Validator Reg Specs Met) (item : IngressV1Item) :
    (mapIndex item.Metadata.Annotations c.IngressFilterAnnotation = none →
      mapIndex item.Metadata.Annotations c.IngressPredicateAnnotation = none →
      mapIndex item.Metadata.Annotations c.IngressRoutesAnnotation = none →
      Validate c igv item = (none, [])) ∧
    (item.Metadata.Annotations = none → Validate c igv item = (none, [])) ∧
    (item.Metadata.Annotations = some [] → Validate c igv item = (none, [])) ∧
    (∀ kvs, item.Metadata.Annotations = some kvs →
      (∀ kv ∈ kvs, kv.1 ≠ c.IngressFilterAnnotation ∧ kv.1 ≠ c.IngressPredicateAnnotation ∧
        kv.1 ≠ c.IngressRoutesAnnotation) →
      Validate c igv item = (none, [])) := by
  have key : mapIndex item.Metadata.Annotations c.IngressFilterAnnotation = none →
      mapIndex item.Metadata.Annotations c.IngressPredicateAnnotation = none →
      mapIndex item.Metadata.Annotations c.IngressRoutesAnnotation = none →
      Validate c igv item = (none, []) := by
    intro h1 h2 h3
    have e : Validate c igv item =
        (Join [( validateFilterAnnotation c igv item).1,
            ( validatePredicateAnnotation c igv item).1,
            ( validateRoutesAnnotation c igv item).1],
          ( validateFilterAnnotation c igv item).2 ++
            ( validatePredicateAnnotation c igv item).2 ++
            ( validateRoutesAnnotation c igv item).2) := rfl
    rw [e, validateFilterAnnotation_absent c igv item h1,
      validatePredicateAnnotation_absent c igv item h2,
      validateRoutesAnnotation_absent c igv item h3]
    rfl
  refine ⟨key, fun hnil => ?_, fun hempty => ?_, fun kvs hk hne => ?_⟩
  · apply key <;> rw [hnil] <;> rfl
  · apply key <;> rw [hempty] <;> rfl
  · apply key <;> rw [hk]
    · exact lookup_eq_none_of_forall_ne kvs _ (fun kv hkv => (hne kv hkv).1)
    · exact lookup_eq_none_of_forall_ne kvs _ (fun kv hkv => (hne kv hkv).2.1)
    · exact lookup_eq_none_of_forall_ne kvs _ (fun kv hkv => (hne kv hkv).2.2)

/-- Witness of C6: an item with a nil annotation map, and an item whose map holds
only the key `kubernetes.io/ingress.class`, with advanced validation enabled. -/
theorem no_recognized_annotation_returns_nil_witness :
    Validate exampleCollaborators (exampleValidator true) (exampleItem none) = (none, []) ∧
      Validate exampleCollaborators (exampleValidator true) exampleItemOther = (none, []) :=
  ⟨(no_recognized_annotation_returns_nil exampleCollaborators (exampleValidator true)
      (exampleItem none)).2.1 rfl,
    (no_recognized_annotation_returns_nil exampleCollaborators (exampleValidator true)
      exampleItemOther).2.2.2 [("kubernetes.io/ingress.class", "foo(")] rfl
      (fun kv hkv => by
        have : kv = ("kubernetes.io/ingress.class", "foo(") := by simpa using hkv
        subst this
        decide)⟩

/-- C7: the three annotation checks are independent. For two items with the same
namespace and name, under the same configuration, the check of an annotation gives
the same result (and makes the same calls) on both items as soon as they agree on
the presence and text of that annotation, whatever the other two annotations hold;
and the result of `Validate` holds the result of each check unaltered: its direct
members are the non-nil results of the three checks in order, and its individual
problems are those of the filter check, then those of the predicate check, then
those of the routes check. -/
theorem annotation_checks_independent [Inhabited Rest]
    (c : Collaborators FDef PDef RDef Reg Specs Met Rest)
    (igv : IngressV1Validator Reg Specs Met) (item1 item2 : IngressV1Item)
    (hns : item1.Metadata.Namespace = item2.Metadata.Namespace)
    (hname : item1.Metadata.Name = item2.Metadata.Name) :
    (mapIndex item1.Metadata.Annotations c.IngressFilterAnnotation =
        mapIndex item2.Metadata.Annotations c.IngressFilterAnnotation →
      validateFilterAnnotation c igv item1 = validateFilterAnnotation c igv item2) ∧
    (mapIndex item1.Metadata.Annotations c.IngressPredicateAnnotation =
        mapIndex item2.Metadata.Annotations c.IngressPredicateAnnotation →
      validatePredicateAnnotation c igv item1 = validatePredicateAnnotation c igv item2) ∧
    (mapIndex item1.Metadata.Annotations c.IngressRoutesAnnotation =
        mapIndex item2.Metadata.Annotations c.IngressRoutesAnnotation →
      validateRoutesAnnotation c igv item1 = validateRoutesAnnotation c igv item2) ∧
    (∀ item : IngressV1Item,
      members (Validate c igv item).1 =
          ( validateFilterAnnotation c igv item).1.toList ++
            ( validatePredicateAnnotation c igv item).1.toList ++
            ( validateRoutesAnnotation c igv item).1.toList ∧
        problems (Validate c igv item).1 =
          problems ( validateFilterAnnotation c igv item).1 ++
            problems ( validatePredicateAnnotation c igv item).1 ++
            problems ( validateRoutesAnnotation c igv item).1) := by
  refine ⟨fun h => ?_, fun h => ?_, fun h => ?_, fun item => ⟨?_, ?_⟩⟩
  · simp only [ validateFilterAnnotation, h, hns, hname]
  · simp only [ validatePredicateAnnotation, h, hns, hname]
  · simp only [ validateRoutesAnnotation, h, routesLoopBody_congr c igv item1 item2 _ hns hname]
  · rw [Validate_fst, members_Join]
    cases ( validateFilterAnnotation c igv item).1 <;>
      cases ( validatePredicateAnnotation c igv item).1 <;>
      cases ( validateRoutesAnnotation c igv item).1 <;> rfl
  · rw [problems_Validate, validateFilterAnnotation_problems,
      validatePredicateAnnotation_problems, validateRoutesAnnotation_problems]

/-- Witness of C7: two items that agree on the filter annotation `foo` and differ
on the other two annotations. -/
theorem annotation_checks_independent_witness :
    exampleItemUnknown.Metadata.Namespace =
        (exampleItem (some [("zalando.org/skipper-predicate", "foo("),
          ("zalando.org/skipper-filter", "foo")])).Metadata.Namespace ∧
      validateFilterAnnotation exampleCollaborators (exampleValidator true)
          exampleItemUnknown =
        validateFilterAnnotation exampleCollaborators (exampleValidator true)
          (exampleItem (some [("zalando.org/skipper-predicate", "foo("),
            ("zalando.org/skipper-filter", "foo")])) :=
  ⟨rfl, (annotation_checks_independent exampleCollaborators (exampleValidator true)
    exampleItemUnknown
    (exampleItem (some [("zalando.org/skipper-predicate", "foo("),
      ("zalando.org/skipper-filter", "foo")])) rfl rfl).1 rfl⟩

/-- C8: when `Validate` returns a non-nil error, its message is the newline-joined
list of the messages of the individual problems, those of the filter annotation
first, then those of the predicate annotation, then those of the routes
annotation, and every individual message begins with `invalid "<key>" annotation: `
for the key of the annotation that produced it. -/
theorem message_is_newline_joined_problems [Inhabited Rest]
    (c : Collaborators FDef PDef RDef Reg Specs Met Rest)
    (igv : IngressV1Validator Reg Specs Met) (item : IngressV1Item) (err : GoError)
    (h : (Validate c igv item).1 = some err) :
    err.Error = "\n".intercalate
        ((problems ( validateFilterAnnotation c igv item).1 ++
          problems ( validatePredicateAnnotation c igv item).1 ++
          problems ( validateRoutesAnnotation c igv item).1).map GoError.Error) ∧
      (∀ e ∈ problems ( validateFilterAnnotation c igv item).1,
        (annotationPrefix c.IngressFilterAnnotation).data <+: e.Error.data) ∧
      (∀ e ∈ problems ( validatePredicateAnnotation c igv item).1,
        (annotationPrefix c.IngressPredicateAnnotation).data <+: e.Error.data) ∧
      (∀ e ∈ problems ( validateRoutesAnnotation c igv item).1,
        (annotationPrefix c.IngressRoutesAnnotation).data <+: e.Error.data) := by
  rw [validateFilterAnnotation_problems, validatePredicateAnnotation_problems,
    validateRoutesAnnotation_problems, ← newlineJoin_eq_intercalate]
  exact ⟨message_Validate c igv item err h,
    fun e he => (filterProblems_wrapped c igv item e he).prefix_message,
    fun e he => (predicateProblems_wrapped c igv item e he).prefix_message,
    fun e he => (routesProblems_wrapped c igv item e he).prefix_message⟩

/-- C9: the error returned by `Validate` decomposes into the problems found.
Unwrapping its composite structure yields, each exactly once and in this order:
for the filter annotation the wrapper of its parse error or else of its checker
error (if any), the same for the predicate annotation, and for the routes
annotation the wrapper of its parse error or else one wrapper per failing route.
Each wrapper is the `fmt.Errorf` error whose message is
`invalid "<key>" annotation: ` followed by the message of the underlying error and
whose wrapped error is that underlying error; so the number of errors obtained
is the number of problems that occurred. -/
theorem error_decomposes_into_problems [Inhabited Rest]
    (c : Collaborators FDef PDef RDef Reg Specs Met Rest)
    (igv : IngressV1Validator Reg Specs Met) (item : IngressV1Item) :
    problems (Validate c igv item).1 =
        (match mapIndex item.Metadata.Annotations c.IngressFilterAnnotation with
          | none => []
          | some text =>
            match (c.ParseFilters text).2 with
            | some p =>
              [GoError.wrap
                ("invalid \"" ++ c.IngressFilterAnnotation ++ "\" annotation: " ++ p.Error) p]
            | none =>
              if igv.EnableAdvancedValidation then
                match c.validateFilters
                    { Namespace := item.Metadata.Namespace, Name := item.Metadata.Name,
                      ResourceType := c.ResourceTypeIngress }
                    igv.FilterRegistry igv.Metrics (c.ParseFilters text).1 with
                | some e =>
                  [GoError.wrap
                    ("invalid \"" ++ c.IngressFilterAnnotation ++ "\" annotation: " ++
                      e.Error) e]
                | none => []
              else []) ++
          (match mapIndex item.Metadata.Annotations c.IngressPredicateAnnotation with
          | none => []
          | some text =>
            match (c.ParsePredicates text).2 with
            | some p =>
              [GoError.wrap
                ("invalid \"" ++ c.IngressPredicateAnnotation ++ "\" annotation: " ++
                  p.Error) p]
            | none =>
              if igv.EnableAdvancedValidation then
                match c.validatePredicates
                    { Namespace := item.Metadata.Namespace, Name := item.Metadata.Name,
                      ResourceType := c.ResourceTypeIngress }
                    igv.PredicateSpecs igv.Metrics (c.ParsePredicates text).1 with
                | some e =>
                  [GoError.wrap
                    ("invalid \"" ++ c.IngressPredicateAnnotation ++ "\" annotation: " ++
                      e.Error) e]
                | none => []
              else []) ++
          (match mapIndex item.Metadata.Annotations c.IngressRoutesAnnotation with
          | none => []
          | some text =>
            match (c.Parse text).2 with
            | some p =>
              [GoError.wrap
                ("invalid \"" ++ c.IngressRoutesAnnotation ++ "\" annotation: " ++ p.Error) p]
            | none =>
              if igv.EnableAdvancedValidation then
                (c.Parse text).1.filterMap fun r =>
                  (c.validateRoute
                    { Namespace := item.Metadata.Namespace, Name := item.Metadata.Name,
                      ResourceType := c.ResourceTypeIngress }
                    { FilterRegistry := igv.FilterRegistry,
                      Predicates := igv.PredicateSpecs, Others := default }
                    igv.Metrics r).map
                    (fun e => GoError.wrap
                      ("invalid \"" ++ c.IngressRoutesAnnotation ++ "\" annotation: " ++
                        e.Error) e)
              else []) ∧
      problems (Validate c igv item).1 =
        filterProblems c igv item ++ predicateProblems c igv item ++
          routesProblems c igv item ∧
      leavesList (members (Validate c igv item).1) =
        filterProblems c igv item ++ predicateProblems c igv item ++
          routesProblems c igv item ∧
      (problems (Validate c igv item).1).length =
        (filterProblems c igv item).length + (predicateProblems c igv item).length +
          (routesProblems c igv item).length := by
  refine ⟨(problems_Validate c igv item).trans rfl, problems_Validate c igv item, ?_, ?_⟩
  · rw [leavesList_members, problems_Validate]
  · rw [problems_Validate, List.length_append, List.length_append]

/-- Evaluation of C9 on the item naming the unknown filter `foo`, the unknown
predicate `bar` and the routes `x`, `a`, `y`: unwrapping the returned error yields
the four wrappers, each holding the checker error under the message carrying its
annotation key. -/
theorem error_decomposes_into_problems_witness :
    problems (Validate exampleCollaborators (exampleValidator true)
        exampleItemUnknown).1 =
      [GoError.wrap "invalid \"zalando.org/skipper-filter\" annotation: \"foo\" not found"
          (.leaf "\"foo\" not found"),
        GoError.wrap "invalid \"zalando.org/skipper-predicate\" annotation: \"bar\" not found"
          (.leaf "\"bar\" not found"),
        GoError.wrap "invalid \"zalando.org/skipper-routes\" annotation: \"x\" not found"
          (.leaf "\"x\" not found"),
        GoError.wrap "invalid \"zalando.org/skipper-routes\" annotation: \"y\" not found"
          (.leaf "\"y\" not found")] :=
  (error_decomposes_into_problems exampleCollaborators (exampleValidator true)
    exampleItemUnknown).1.trans rfl

/-- Witness of C8: the message for the item naming the unknown filter `foo`, the
unknown predicate `bar` and the unknown routes `x` and `y`. -/
theorem message_is_newline_joined_problems_witness :
    (Validate exampleCollaborators (exampleValidator true) exampleItemUnknown).1 =
        some exampleUnknownError ∧
      exampleUnknownError.Error =
        "invalid \"zalando.org/skipper-filter\" annotation: \"foo\" not found\n" ++
        "invalid \"zalando.org/skipper-predicate\" annotation: \"bar\" not found\n" ++
        "invalid \"zalando.org/skipper-routes\" annotation: \"x\" not found\n" ++
        "invalid \"zalando.org/skipper-routes\" annotation: \"y\" not found" :=
  ⟨rfl, (message_is_newline_joined_problems exampleCollaborators (exampleValidator true)
    exampleItemUnknown exampleUnknownError rfl).1.trans rfl⟩

/-- C10, as stated, fails: an item carrying only a routes annotation whose two
parsed routes `x` and `y` both fail the route check makes the routes annotation
contribute two individual errors to the aggregated error, not at most one. -/
theorem routes_annotation_contributes_two_errors :
    mapIndex exampleItemTwoRoutes.Metadata.Annotations
        exampleCollaborators.IngressRoutesAnnotation = some "xy" ∧
      exampleCollaborators.Parse "xy" = (["x", "y"], none) ∧
      problems ( validateRoutesAnnotation exampleCollaborators (exampleValidator true)
        exampleItemTwoRoutes).1 =
        [annotationErrorf "zalando.org/skipper-routes" (.leaf "\"x\" not found"),
          annotationErrorf "zalando.org/skipper-routes" (.leaf "\"y\" not found")] ∧
      problems (Validate exampleCollaborators (exampleValidator true)
        exampleItemTwoRoutes).1 =
        [annotationErrorf "zalando.org/skipper-routes" (.leaf "\"x\" not found"),
          annotationErrorf "zalando.org/skipper-routes" (.leaf "\"y\" not found")] ∧
      ¬ (problems ( validateRoutesAnnotation exampleCollaborators (exampleValidator true)
        exampleItemTwoRoutes).1).length ≤ 1 :=
  ⟨rfl, rfl, rfl, rfl, by decide⟩

/-- C10, amended: in one `Validate` call each of the three annotations occupies at
most one slot (direct member) of the aggregated error, and the filter and the
predicate annotation each contribute at most one individual error; the routes
annotation contributes at most one individual error when advanced validation is
off, exactly one when its text fails to parse, and otherwise one individual error
per failing parsed route, hence at most N for N parsed routes. -/
theorem one_slot_per_annotation_one_error_per_failing_route [Inhabited Rest]
    (c : Collaborators FDef PDef RDef Reg Specs Met Rest)
    (igv : IngressV1Validator Reg Specs Met) (item : IngressV1Item) :
    members (Validate c igv item).1 =
        ( validateFilterAnnotation c igv item).1.toList ++
          ( validatePredicateAnnotation c igv item).1.toList ++
          ( validateRoutesAnnotation c igv item).1.toList ∧
      (members (Validate c igv item).1).length ≤ 3 ∧
      (problems ( validateFilterAnnotation c igv item).1).length ≤ 1 ∧
      (problems ( validatePredicateAnnotation c igv item).1).length ≤ 1 ∧
      (igv.EnableAdvancedValidation = false →
        (problems ( validateRoutesAnnotation c igv item).1).length ≤ 1) ∧
      (∀ text p,
        mapIndex item.Metadata.Annotations c.IngressRoutesAnnotation = some text →
        (c.Parse text).2 = some p →
        (problems ( validateRoutesAnnotation c igv item).1).length = 1) ∧
      (∀ text,
        mapIndex item.Metadata.Annotations c.IngressRoutesAnnotation = some text →
        (c.Parse text).2 = none → igv.EnableAdvancedValidation = true →
        (problems ( validateRoutesAnnotation c igv item).1).length =
            ((c.Parse text).1.filter (fun r =>
              (c.validateRoute (contextOf c item) (optionsOf igv) igv.Metrics r).isSome)).length ∧
          (problems ( validateRoutesAnnotation c igv item).1).length ≤
            (c.Parse text).1.length) := by
  have hm : members (Validate c igv item).1 =
      ( validateFilterAnnotation c igv item).1.toList ++
        ( validatePredicateAnnotation c igv item).1.toList ++
        ( validateRoutesAnnotation c igv item).1.toList := by
    rw [Validate_fst, members_Join]
    cases ( validateFilterAnnotation c igv item).1 <;>
      cases ( validatePredicateAnnotation c igv item).1 <;>
      cases ( validateRoutesAnnotation c igv item).1 <;> rfl
  refine ⟨hm, ?_, ?_, ?_, fun hf => ?_, fun text p h hp => ?_, fun text h hp hf => ?_⟩
  · rw [hm]
    cases ( validateFilterAnnotation c igv item).1 <;>
      cases ( validatePredicateAnnotation c igv item).1 <;>
      cases ( validateRoutesAnnotation c igv item).1 <;> simp
  · rw [validateFilterAnnotation_problems]
    exact filterProblems_length_le c igv item
  · rw [validatePredicateAnnotation_problems]
    exact predicateProblems_length_le c igv item
  · rw [validateRoutesAnnotation_problems]
    unfold routesProblems
    simp only [hf]
    repeat' split
    all_goals simp_all
  · rw [validateRoutesAnnotation_problems]
    simp [routesProblems, h, hp]
  · have hprob : problems ( validateRoutesAnnotation c igv item).1 =
        routeErrors c igv item (c.Parse text).1 := by
      rw [validateRoutesAnnotation_problems]
      simp [routesProblems, h, hp, hf]
    rw [hprob, routeErrors_length]
    exact ⟨rfl, List.length_filter_le _ _⟩

/-- Witness of amended C10: two failing routes out of two with advanced validation
on, the same item with advanced validation off, and a malformed routes text. -/
theorem one_slot_per_annotation_one_error_per_failing_route_witness :
    ((problems ( validateRoutesAnnotation exampleCollaborators (exampleValidator true)
        exampleItemTwoRoutes).1).length =
          ((exampleCollaborators.Parse "xy").1.filter (fun r =>
            (exampleCollaborators.validateRoute
              (contextOf exampleCollaborators exampleItemTwoRoutes)
              (optionsOf (exampleValidator true)) (exampleValidator true).Metrics
              r).isSome)).length ∧
        (problems ( validateRoutesAnnotation exampleCollaborators (exampleValidator true)
          exampleItemTwoRoutes).1).length ≤ (exampleCollaborators.Parse "xy").1.length) ∧
      (problems ( validateRoutesAnnotation exampleCollaborators (exampleValidator false)
        exampleItemTwoRoutes).1).length ≤ 1 ∧
      (problems ( validateRoutesAnnotation exampleCollaborators (exampleValidator true)
        exampleItemMalformed).1).length = 1 :=
  ⟨(one_slot_per_annotation_one_error_per_failing_route exampleCollaborators
      (exampleValidator true) exampleItemTwoRoutes).2.2.2.2.2.2 "xy" rfl rfl rfl,
    (one_slot_per_annotation_one_error_per_failing_route exampleCollaborators
      (exampleValidator false) exampleItemTwoRoutes).2.2.2.2.1 rfl,
    (one_slot_per_annotation_one_error_per_failing_route exampleCollaborators
      (exampleValidator true) exampleItemMalformed).2.2.2.2.2.1 "foo("
      (.leaf "parse failed") rfl rfl⟩

/-- C11: when exactly one of the three annotations is present and its parser
returns an error `p`, `Validate` returns the same non-nil error for every value of
`EnableAdvancedValidation` (and every other configuration field); that error
holds exactly one individual error, and its message is exactly
`invalid "<key>" annotation: ` followed by the message of `p`, for the key of the
present annotation: the text the validator adds is built from that key alone. -/
theorem single_malformed_annotation_reports_its_key_only [Inhabited Rest]
    (c : Collaborators FDef PDef RDef Reg Specs Met Rest)
    (igv : IngressV1Validator Reg Specs Met) (item : IngressV1Item) (p : GoError) :
    (∀ text,
      mapIndex item.Metadata.Annotations c.IngressFilterAnnotation = some text →
      (c.ParseFilters text).2 = some p →
      mapIndex item.Metadata.Annotations c.IngressPredicateAnnotation = none →
      mapIndex item.Metadata.Annotations c.IngressRoutesAnnotation = none →
      (∀ igv2 : IngressV1Validator Reg Specs Met,
          (Validate c igv2 item).1 = (Validate c igv item).1) ∧
        (Validate c igv item).1 =
          some (.join [.join [annotationErrorf c.IngressFilterAnnotation p]]) ∧
        problems (Validate c igv item).1 = [annotationErrorf c.IngressFilterAnnotation p] ∧
        message (Validate c igv item).1 =
          some ("invalid \"" ++ c.IngressFilterAnnotation ++ "\" annotation: " ++ p.Error)) ∧
    (∀ text,
      mapIndex item.Metadata.Annotations c.IngressPredicateAnnotation = some text →
      (c.ParsePredicates text).2 = some p →
      mapIndex item.Metadata.Annotations c.IngressFilterAnnotation = none →
      mapIndex item.Metadata.Annotations c.IngressRoutesAnnotation = none →
      (∀ igv2 : IngressV1Validator Reg Specs Met,
          (Validate c igv2 item).1 = (Validate c igv item).1) ∧
        (Validate c igv item).1 =
          some (.join [.join [annotationErrorf c.IngressPredicateAnnotation p]]) ∧
        problems (Validate c igv item).1 =
          [annotationErrorf c.IngressPredicateAnnotation p] ∧
        message (Validate c igv item).1 =
          some ("invalid \"" ++ c.IngressPredicateAnnotation ++ "\" annotation: " ++
            p.Error)) ∧
    (∀ text,
      mapIndex item.Metadata.Annotations c.IngressRoutesAnnotation = some text →
      (c.Parse text).2 = some p →
      mapIndex item.Metadata.Annotations c.IngressFilterAnnotation = none →
      mapIndex item.Metadata.Annotations c.IngressPredicateAnnotation = none →
      (∀ igv2 : IngressV1Validator Reg Specs Met,
          (Validate c igv2 item).1 = (Validate c igv item).1) ∧
        (Validate c igv item).1 =
          some (.join [.join [annotationErrorf c.IngressRoutesAnnotation p]]) ∧
        problems (Validate c igv item).1 = [annotationErrorf c.IngressRoutesAnnotation p] ∧
        message (Validate c igv item).1 =
          some ("invalid \"" ++ c.IngressRoutesAnnotation ++ "\" annotation: " ++ p.Error)) := by
  refine ⟨fun text h hp h2 h3 => ?_, fun text h hp h2 h3 => ?_, fun text h hp h2 h3 => ?_⟩
  · have hv : ∀ igv2 : IngressV1Validator Reg Specs Met, (Validate c igv2 item).1 =
        some (.join [.join [annotationErrorf c.IngressFilterAnnotation p]]) := by
      intro igv2
      rw [Validate_fst, validateFilterAnnotation_parseError c igv2 item text p h hp,
        validatePredicateAnnotation_absent c igv2 item h2,
        validateRoutesAnnotation_absent c igv2 item h3]
      rfl
    refine ⟨fun igv2 => by rw [hv igv2, hv igv], hv igv, ?_, ?_⟩
    · rw [hv igv]
      simp [problems, GoError.leaves, leavesList, annotationErrorf]
    · rw [hv igv]
      simp [message, GoError.Error, joinMsgs, annotationErrorf, annotationPrefix]
  · have hv : ∀ igv2 : IngressV1Validator Reg Specs Met, (Validate c igv2 item).1 =
        some (.join [.join [annotationErrorf c.IngressPredicateAnnotation p]]) := by
      intro igv2
      rw [Validate_fst, validatePredicateAnnotation_parseError c igv2 item text p h hp,
        validateFilterAnnotation_absent c igv2 item h2,
        validateRoutesAnnotation_absent c igv2 item h3]
      rfl
    refine ⟨fun igv2 => by rw [hv igv2, hv igv], hv igv, ?_, ?_⟩
    · rw [hv igv]
      simp [problems, GoError.leaves, leavesList, annotationErrorf]
    · rw [hv igv]
      simp [message, GoError.Error, joinMsgs, annotationErrorf, annotationPrefix]
  · have hv : ∀ igv2 : IngressV1Validator Reg Specs Met, (Validate c igv2 item).1 =
        some (.join [.join [annotationErrorf c.IngressRoutesAnnotation p]]) := by
      intro igv2
      rw [Validate_fst, validateRoutesAnnotation_parseError c igv2 item text p h hp,
        validateFilterAnnotation_absent c igv2 item h2,
        validatePredicateAnnotation_absent c igv2 item h3]
      rfl
    refine ⟨fun igv2 => by rw [hv igv2, hv igv], hv igv, ?_, ?_⟩
    · rw [hv igv]
      simp [problems, GoError.leaves, leavesList, annotationErrorf]
    · rw [hv igv]
      simp [message, GoError.Error, joinMsgs, annotationErrorf, annotationPrefix]

/-- Witness of C11: an item whose only annotation is the malformed predicate text
`foo(`; the result is the same with advanced validation on and off. -/
theorem single_malformed_annotation_reports_its_key_only_witness :
    mapIndex (exampleItem (some [("zalando.org/skipper-predicate", "foo(")])).Metadata.Annotations
        exampleCollaborators.IngressPredicateAnnotation = some "foo(" ∧
      (Validate exampleCollaborators (exampleValidator false)
          (exampleItem (some [("zalando.org/skipper-predicate", "foo(")]))).1 =
        (Validate exampleCollaborators (exampleValidator true)
          (exampleItem (some [("zalando.org/skipper-predicate", "foo(")]))).1 ∧
      message (Validate exampleCollaborators (exampleValidator true)
          (exampleItem (some [("zalando.org/skipper-predicate", "foo(")]))).1 =
        some ("invalid \"" ++ exampleCollaborators.IngressPredicateAnnotation ++
          "\" annotation: " ++ (GoError.leaf "parse failed").Error) :=
  have h := (single_malformed_annotation_reports_its_key_only exampleCollaborators
    (exampleValidator true)
    (exampleItem (some [("zalando.org/skipper-predicate", "foo(")]))
    (.leaf "parse failed")).2.1 "foo(" rfl rfl rfl rfl
  ⟨rfl, h.1 (exampleValidator false), h.2.2.2⟩

/-- C12: every semantic-checker call made by `Validate` receives the resource
context holding the item's namespace, the item's name and the ingress resource
type, the validator's own metrics, and the definitions the parser returned for the
annotation's text; the filter checker receives the validator's filter registry,
the predicate checker its predicate specs, and every route check the options
bundle made of both with every other field at its zero value. When an annotation
parses and advanced validation is enabled, the call with exactly these arguments
is made, for routes once per parsed route. -/
theorem checkers_receive_specified_arguments [Inhabited Rest]
    (c : Collaborators FDef PDef RDef Reg Specs Met Rest)
    (igv : IngressV1Validator Reg Specs Met) (item : IngressV1Item) :
    (∀ call ∈ (Validate c igv item).2, receivesSpecifiedArguments c igv item call) ∧
    (∀ text,
      mapIndex item.Metadata.Annotations c.IngressFilterAnnotation = some text →
      (c.ParseFilters text).2 = none → igv.EnableAdvancedValidation = true →
      Call.validateFilters
          { Namespace := item.Metadata.Namespace, Name := item.Metadata.Name,
            ResourceType := c.ResourceTypeIngress }
          igv.FilterRegistry igv.Metrics (c.ParseFilters text).1 ∈
        (Validate c igv item).2) ∧
    (∀ text,
      mapIndex item.Metadata.Annotations c.IngressPredicateAnnotation = some text →
      (c.ParsePredicates text).2 = none → igv.EnableAdvancedValidation = true →
      Call.validatePredicates
          { Namespace := item.Metadata.Namespace, Name := item.Metadata.Name,
            ResourceType := c.ResourceTypeIngress }
          igv.PredicateSpecs igv.Metrics (c.ParsePredicates text).1 ∈
        (Validate c igv item).2) ∧
    (∀ text,
      mapIndex item.Metadata.Annotations c.IngressRoutesAnnotation = some text →
      (c.Parse text).2 = none → igv.EnableAdvancedValidation = true →
      ∀ r ∈ (c.Parse text).1,
        Call.validateRoute
            { Namespace := item.Metadata.Namespace, Name := item.Metadata.Name,
              ResourceType := c.ResourceTypeIngress }
            { FilterRegistry := igv.FilterRegistry, Predicates := igv.PredicateSpecs,
              Others := default }
            igv.Metrics r ∈
          (Validate c igv item).2) := by
  refine ⟨fun call hcall => ?_, fun text h hp hf => ?_, fun text h hp hf => ?_,
    fun text h hp hf r hr => ?_⟩
  · rw [Validate_snd] at hcall
    rcases List.mem_append.mp hcall with h12 | h3
    · rcases List.mem_append.mp h12 with h1 | h2
      · exact validateFilterAnnotation_calls c igv item call h1
      · exact validatePredicateAnnotation_calls c igv item call h2
    · exact validateRoutesAnnotation_calls c igv item call h3
  · rw [Validate_snd, validateFilterAnnotation_advanced c igv item text h hp hf]
    simp [contextOf]
  · rw [Validate_snd, validatePredicateAnnotation_advanced c igv item text h hp hf]
    simp [contextOf]
  · rw [Validate_snd, validateRoutesAnnotation_advanced c igv item text h hp hf]
    refine List.mem_append_right _ (List.mem_cons_of_mem _ ?_)
    exact List.mem_map.mpr ⟨r, hr, rfl⟩

/-- Witness of C12: the filter check and the check of the route `y` of the item
naming the filter `foo` and the routes `x`, `a`, `y`. -/
theorem checkers_receive_specified_arguments_witness :
    Call.validateFilters ⟨"default", "ing", "ingress"⟩ ["a"] () ["foo"] ∈
        (Validate exampleCollaborators (exampleValidator true) exampleItemUnknown).2 ∧
      Call.validateRoute ⟨"default", "ing", "ingress"⟩ ⟨["a"], ["p"], ()⟩ () "y" ∈
        (Validate exampleCollaborators (exampleValidator true) exampleItemUnknown).2 ∧
      receivesSpecifiedArguments exampleCollaborators (exampleValidator true)
        exampleItemUnknown
        (Call.validateRoute ⟨"default", "ing", "ingress"⟩ ⟨["a"], ["p"], ()⟩ () "y") :=
  have h := checkers_receive_specified_arguments exampleCollaborators
    (exampleValidator true) exampleItemUnknown
  have hy := h.2.2.2 "xay" rfl rfl rfl "y" (by decide)
  ⟨h.2.1 "foo" rfl rfl rfl, hy, h.1 _ hy⟩

/-- C13: the error returned by `Validate` has at most three direct members, one
per failing annotation in the order filter, predicate, routes. Each direct member
is the composite built by that annotation's check out of its problems (one wrapped
parse error, one wrapped checker error, or one wrapped error per failing route),
so the number of direct members is the number of failing annotations; it is
smaller than the number of individual problems whenever two or more routes fail. -/
theorem one_direct_member_per_failing_check [Inhabited Rest]
    (c : Collaborators FDef PDef RDef Reg Specs Met Rest)
    (igv : IngressV1Validator Reg Specs Met) (item : IngressV1Item) :
    members (Validate c igv item).1 =
        ( validateFilterAnnotation c igv item).1.toList ++
          ( validatePredicateAnnotation c igv item).1.toList ++
          ( validateRoutesAnnotation c igv item).1.toList ∧
      (members (Validate c igv item).1).length ≤ 3 ∧
      ((filterProblems c igv item = [] ∧ ( validateFilterAnnotation c igv item).1 = none) ∨
        ((filterProblems c igv item).length = 1 ∧
          ( validateFilterAnnotation c igv item).1 =
            some (.join (filterProblems c igv item)))) ∧
      ((predicateProblems c igv item = [] ∧
          ( validatePredicateAnnotation c igv item).1 = none) ∨
        ((predicateProblems c igv item).length = 1 ∧
          ( validatePredicateAnnotation c igv item).1 =
            some (.join (predicateProblems c igv item)))) ∧
      ((routesProblems c igv item = [] ∧ ( validateRoutesAnnotation c igv item).1 = none) ∨
        (routesProblems c igv item ≠ [] ∧
          ( validateRoutesAnnotation c igv item).1 =
            some (.join (routesProblems c igv item)))) ∧
      (members (Validate c igv item).1).length =
        (if (filterProblems c igv item).isEmpty then 0 else 1) +
          (if (predicateProblems c igv item).isEmpty then 0 else 1) +
          (if (routesProblems c igv item).isEmpty then 0 else 1) ∧
      (∀ text,
        mapIndex item.Metadata.Annotations c.IngressRoutesAnnotation = some text →
        (c.Parse text).2 = none → igv.EnableAdvancedValidation = true →
        2 ≤ ((c.Parse text).1.filter (fun r =>
          (c.validateRoute (contextOf c item) (optionsOf igv) igv.Metrics r).isSome)).length →
        (members (Validate c igv item).1).length <
          (problems (Validate c igv item).1).length) := by
  have hm := members_Validate c igv item
  have hf := validateFilterAnnotation_fst c igv item
  have hp := validatePredicateAnnotation_fst c igv item
  have hr := validateRoutesAnnotation_fst c igv item
  have lf := filterProblems_length_le c igv item
  have lp := predicateProblems_length_le c igv item
  have hprob := problems_Validate c igv item
  have hcount : (members (Validate c igv item).1).length =
      (if (filterProblems c igv item).isEmpty then 0 else 1) +
        (if (predicateProblems c igv item).isEmpty then 0 else 1) +
        (if (routesProblems c igv item).isEmpty then 0 else 1) := by
    rw [hm, hf, hp, hr]
    rcases filterProblems c igv item with _ | ⟨a, A⟩ <;>
      rcases predicateProblems c igv item with _ | ⟨b, B⟩ <;>
      rcases routesProblems c igv item with _ | ⟨d, D⟩ <;>
      simp only [Join_map_some_cons, Join_map_some_nil] <;> simp
  refine ⟨hm, ?_, ?_, ?_, ?_, hcount, ?_⟩
  · rw [hcount]
    split <;> split <;> split <;> simp
  · rw [hf]
    rcases Join_map_some_cases (filterProblems c igv item) with h | h
    · exact Or.inl h
    · refine Or.inr ⟨?_, h.2⟩
      have := List.length_pos.mpr h.1
      omega
  · rw [hp]
    rcases Join_map_some_cases (predicateProblems c igv item) with h | h
    · exact Or.inl h
    · refine Or.inr ⟨?_, h.2⟩
      have := List.length_pos.mpr h.1
      omega
  · rw [hr]
    exact Join_map_some_cases (routesProblems c igv item)
  · intro text h hpar hflag h2
    have hrp : routesProblems c igv item = routeErrors c igv item (c.Parse text).1 := by
      simp [routesProblems, h, hpar, hflag]
    have hlen : 2 ≤ (routesProblems c igv item).length := by
      rw [hrp, routeErrors_length]
      exact h2
    have hne : (routesProblems c igv item).isEmpty = false := by
      cases hrp2 : routesProblems c igv item with
      | nil => rw [hrp2] at hlen; simp at hlen
      | cons d D => rfl
    rw [hcount, hprob, List.length_append, List.length_append, hne]
    have e1 : (if (filterProblems c igv item).isEmpty then 0 else 1) ≤
        (filterProblems c igv item).length := by
      cases filterProblems c igv item <;> simp
    have e2 : (if (predicateProblems c igv item).isEmpty then 0 else 1) ≤
        (predicateProblems c igv item).length := by
      cases predicateProblems c igv item <;> simp
    simp only [Bool.false_eq_true, if_false]
    omega

/-- Witness of C13: with the routes `x` and `y` of `exampleItemUnknown` failing,
the returned error has three direct members and four individual problems. -/
theorem one_direct_member_per_failing_check_witness :
    2 ≤ ((exampleCollaborators.Parse "xay").1.filter (fun r =>
        (exampleCollaborators.validateRoute
          (contextOf exampleCollaborators exampleItemUnknown)
          (optionsOf (exampleValidator true)) (exampleValidator true).Metrics
          r).isSome)).length ∧
      (members (Validate exampleCollaborators (exampleValidator true)
          exampleItemUnknown).1).length <
        (problems (Validate exampleCollaborators (exampleValidator true)
          exampleItemUnknown).1).length :=
  ⟨by decide,
    (one_direct_member_per_failing_check exampleCollaborators (exampleValidator true)
      exampleItemUnknown).2.2.2.2.2.2 "xay" rfl rfl rfl (by decide)⟩

/-- C14: enabling advanced validation never removes an error. For two validators
that differ only in `EnableAdvancedValidation`, the individual errors reported
with the flag false are exactly the wrapped parse errors, and they are reported
unchanged and in the same relative order with the flag true; consequently, when
`Validate` returns nil with the flag true it returns nil with the flag false. -/
theorem enabling_advanced_validation_keeps_errors [Inhabited Rest]
    (c : Collaborators FDef PDef RDef Reg Specs Met Rest)
    (igv : IngressV1Validator Reg Specs Met) (item : IngressV1Item) :
    problems (Validate c { igv with EnableAdvancedValidation := false } item).1 =
        parseProblems c item ∧
      (problems (Validate c { igv with EnableAdvancedValidation := false } item).1).Sublist
        (problems (Validate c { igv with EnableAdvancedValidation := true } item).1) ∧
      ((Validate c { igv with EnableAdvancedValidation := true } item).1 = none →
        (Validate c { igv with EnableAdvancedValidation := false } item).1 = none) := by
  have hF : problems (Validate c { igv with EnableAdvancedValidation := false } item).1 =
      parseProblems c item := by
    rw [problems_Validate, filterProblems_syntaxOnly c _ item rfl,
      predicateProblems_syntaxOnly c _ item rfl, routesProblems_syntaxOnly c _ item rfl]
    rfl
  have hsub : (parseProblems c item).Sublist
      (problems (Validate c { igv with EnableAdvancedValidation := true } item).1) := by
    rw [problems_Validate]
    exact List.Sublist.append
      (List.Sublist.append (parseProblem_sublist_filterProblems c _ item)
        (parseProblem_sublist_predicateProblems c _ item))
      (parseProblem_sublist_routesProblems c _ item)
  refine ⟨hF, hF ▸ hsub, fun hT => ?_⟩
  apply Validate_eq_none_of_problems_nil
  rw [hF]
  have hnil : problems (Validate c { igv with EnableAdvancedValidation := true } item).1 =
      [] := by rw [hT]; rfl
  rw [hnil] at hsub
  exact List.sublist_nil.mp hsub

/-- Witness of C14: an item whose filter `a`, predicate `p` and routes `a`, `a` are
all known is accepted with advanced validation on, hence with it off. -/
theorem enabling_advanced_validation_keeps_errors_witness :
    (Validate exampleCollaborators
        { exampleValidator true with EnableAdvancedValidation := true }
        (exampleItem (some [("zalando.org/skipper-filter", "a"),
          ("zalando.org/skipper-predicate", "p"),
          ("zalando.org/skipper-routes", "aa")]))).1 = none ∧
      (Validate exampleCollaborators
        { exampleValidator true with EnableAdvancedValidation := false }
        (exampleItem (some [("zalando.org/skipper-filter", "a"),
          ("zalando.org/skipper-predicate", "p"),
          ("zalando.org/skipper-routes", "aa")]))).1 = none :=
  ⟨rfl, (enabling_advanced_validation_keeps_errors exampleCollaborators
    (exampleValidator true)
    (exampleItem (some [("zalando.org/skipper-filter", "a"),
      ("zalando.org/skipper-predicate", "p"),
      ("zalando.org/skipper-routes", "aa")]))).2.2 rfl⟩

end Outcomes

end Skipper
